import Mathlib

/-!
Verification of the room/session state machine of the anonymous-chat server
(src/server.js, with the reaction handlers of the enhanced variant in
src/unnamed/part_000).

The JavaScript `Map` objects (`rooms`, `users`) are embedded as association
lists over `String` keys; `Map.set` replaces the entry in place when the key
is present and appends otherwise, `Map.delete` removes the entry.  JavaScript
`Set` objects (`room.users`, `room.stealthUsers`) are embedded as duplicate
free lists: `Set.add` appends when absent, `Set.delete` removes the element.
`Date.now()` is passed to every handler as an explicit `now : Nat` argument,
and the formatted `getIndianTime()` string as an explicit `ts : String`.
Socket.io emissions are returned as an explicit list of `Emit` values;
`setTimeout` callbacks become separate fire events.
-/

namespace Chat

/-- JS `Map.prototype.get`: first entry with the given key. -/
def alookup {α : Type} : List (String × α) → String → Option α
  | [], _ => none
  | (k', v') :: rest, k => if k' = k then some v' else alookup rest k

/-- JS `Map.prototype.set`: replace in place if present, else append. -/
def aset {α : Type} : List (String × α) → String → α → List (String × α)
  | [], k, v => [(k, v)]
  | (k', v') :: rest, k, v =>
    if k' = k then (k, v) :: rest else (k', v') :: aset rest k v

/-- JS `Map.prototype.delete`.  Maps built from `aset`/`adel` have unique
keys, so removing every entry with the key coincides with removing the one
entry. -/
def adel {α : Type} (m : List (String × α)) (k : String) : List (String × α) :=
  m.filter (fun p => p.1 ≠ k)

/-- JS `Set.prototype.add` on a duplicate-free list. -/
def setAdd (s : List String) (x : String) : List String :=
  if x ∈ s then s else s ++ [x]

/-- JS `Set.prototype.delete`.  Sets hold no duplicates, so removing every
occurrence coincides with removing the element. -/
def setDelete (s : List String) (x : String) : List String :=
  s.filter (fun y => y ≠ x)

/-- JS `String.prototype.trim`, implemented on the character list so that
it computes by reduction (the library `String.trim` is defined by
well-founded recursion on byte positions and does not reduce). -/
def jsTrim (s : String) : String :=
  String.mk (((s.data.dropWhile Char.isWhitespace).reverse.dropWhile
    Char.isWhitespace).reverse)

/-- JS truthiness of an optional string (`null` and `""` are falsy). -/
def truthy : Option String → Bool
  | none => false
  | some s => s ≠ ""

theorem alookup_aset {α : Type} (m : List (String × α)) (k : String) (v : α)
    (k' : String) :
    alookup (aset m k v) k' = if k' = k then some v else alookup m k' := by
  induction m with
  | nil =>
    by_cases h : k' = k
    · subst h; simp [aset, alookup]
    · rw [if_neg h]
      simp [aset, alookup, show ¬ k = k' from fun h' => h h'.symm]
  | cons p rest ih =>
    obtain ⟨k₀, v₀⟩ := p
    by_cases h0 : k₀ = k
    · subst h0
      by_cases h1 : k' = k₀
      · subst h1; simp [aset, alookup]
      · simp [aset, alookup, h1, show ¬ k₀ = k' from fun h' => h1 h'.symm]
    · by_cases h1 : k₀ = k'
      · subst h1
        simp [aset, alookup, h0]
      · simp [aset, alookup, h0, h1, ih]

theorem adel_cons {α : Type} (k₀ : String) (v₀ : α) (rest : List (String × α))
    (k : String) :
    adel ((k₀, v₀) :: rest) k =
      if k₀ = k then adel rest k else (k₀, v₀) :: adel rest k := by
  by_cases h : k₀ = k <;> simp [adel, h]

theorem alookup_adel {α : Type} (m : List (String × α)) (k k' : String) :
    alookup (adel m k) k' = if k' = k then none else alookup m k' := by
  induction m with
  | nil => simp [adel, alookup]
  | cons p rest ih =>
    obtain ⟨k₀, v₀⟩ := p
    rw [adel_cons]
    by_cases h0 : k₀ = k
    · subst h0
      rw [if_pos rfl, ih]
      by_cases h1 : k' = k₀
      · rw [if_pos h1, if_pos h1]
      · rw [if_neg h1, if_neg h1]
        simp [alookup, show ¬ k₀ = k' from fun h' => h1 h'.symm]
    · rw [if_neg h0]
      by_cases h1 : k₀ = k'
      · subst h1
        simp [alookup, h0]
      · simp [alookup, h1, ih]

theorem alookup_map_entries {α : Type} (g : String → α → α)
    (m : List (String × α)) (k : String) :
    alookup (m.map fun p => (p.1, g p.1 p.2)) k = (alookup m k).map (g k) := by
  induction m with
  | nil => rfl
  | cons p rest ih =>
    obtain ⟨k₀, v₀⟩ := p
    by_cases h : k₀ = k
    · subst h; simp [alookup]
    · simp [alookup, h, ih]

theorem alookup_foldl_adel {α : Type} (ks : List String)
    (m : List (String × α)) (k : String) :
    alookup (ks.foldl adel m) k = if k ∈ ks then none else alookup m k := by
  induction ks generalizing m with
  | nil => simp
  | cons k₀ rest ih =>
    simp only [List.foldl_cons]
    rw [ih]
    by_cases h : k ∈ rest
    · simp [h]
    · by_cases h2 : k = k₀
      · subst h2; simp [h, alookup_adel]
      · simp [h, h2, alookup_adel]

theorem mem_of_alookup {α : Type} (m : List (String × α)) (k : String) (v : α)
    (h : alookup m k = some v) : (k, v) ∈ m := by
  induction m with
  | nil => simp [alookup] at h
  | cons p rest ih =>
    obtain ⟨k₀, v₀⟩ := p
    by_cases h0 : k₀ = k
    · subst h0
      simp [alookup] at h
      simp [h]
    · simp [alookup, h0] at h
      exact List.mem_cons_of_mem _ (ih h)

theorem aset_aset {α : Type} (m : List (String × α)) (k : String) (v w : α) :
    aset (aset m k v) k w = aset m k w := by
  induction m with
  | nil => simp [aset]
  | cons p rest ih =>
    obtain ⟨k₀, v₀⟩ := p
    by_cases h : k₀ = k
    · subst h; simp [aset]
    · simp [aset, h, ih]

theorem aset_of_alookup_none {α : Type} (m : List (String × α)) (k : String)
    (v : α) (h : alookup m k = none) : aset m k v = m ++ [(k, v)] := by
  induction m with
  | nil => rfl
  | cons p rest ih =>
    obtain ⟨k₀, v₀⟩ := p
    by_cases h0 : k₀ = k
    · subst h0; simp [alookup] at h
    · simp [alookup, h0] at h
      simp [aset, h0, ih h]

theorem mem_setAdd (s : List String) (x y : String) :
    y ∈ setAdd s x ↔ y ∈ s ∨ y = x := by
  by_cases h : x ∈ s
  · simp only [setAdd, if_pos h]
    constructor
    · exact Or.inl
    · rintro (hy | hy)
      · exact hy
      · exact hy ▸ h
  · simp only [setAdd, if_neg h, List.mem_append, List.mem_singleton]

theorem mem_setDelete (s : List String) (x y : String) :
    y ∈ setDelete s x ↔ y ∈ s ∧ y ≠ x := by
  simp [setDelete]

theorem not_mem_setDelete (s : List String) (x : String) :
    x ∉ setDelete s x := by
  simp [setDelete]

theorem setDelete_of_not_mem (s : List String) (x : String) (h : x ∉ s) :
    setDelete s x = s := by
  simp only [setDelete]
  apply List.filter_eq_self.mpr
  intro a ha
  simp
  intro he
  exact absurd (he ▸ ha) h

/-- A chat message as pushed into `room.messages` in src/server.js.  System
messages carry no `nickname` field, which is embedded as `none`. -/
structure Message where
  id : String
  type : String
  nickname : Option String
  text : String
  timestamp : String
deriving DecidableEq

/-- A room entity (`rooms.set(id, {...})` in src/server.js). -/
structure Room where
  name : String
  password : Option String
  owner : Option String
  messages : List Message
  users : List String
  stealthUsers : List String
  lastActivity : Nat
deriving DecidableEq

/-- A per-connection session (`users.set(socket.id, {...})`). -/
structure User where
  nickname : String
  currentRoom : Option String
  isOwner : Bool
  stealthMode : Bool
deriving DecidableEq

/-- The shared mutable state of the server: the `rooms` and `users` maps. -/
structure ServerState where
  rooms : List (String × Room)
  users : List (String × User)
deriving DecidableEq

/-- An entry of the list emitted as `roomsList` (`getRoomsList`). -/
structure RoomSummary where
  id : String
  name : String
  userCount : Nat
  hasPassword : Bool
  canClose : Bool
deriving DecidableEq

/-- Payloads of the outbound events of src/server.js. -/
inductive Payload where
  | message (m : Message)
  | userCount (n : Nat)
  | textMsg (s : String)
  | nicknameSet (s : String)
  | joinedRoom (roomId roomName : String) (messages : List Message)
      (userCount : Nat) (isOwner stealthMode : Bool)
  | roomsList (l : List RoomSummary)
deriving DecidableEq

/-- An outbound effect of a handler: a socket.io emission (to the caller, to a
room, or to everyone), or the scheduling of a `setTimeout` callback (the
deferred room deletion of `closeRoom`, and the owner-disconnect cascade). -/
inductive Emit where
  | toSocket (sid : String) (event : String) (p : Payload)
  | toRoom (rid : String) (event : String) (p : Payload)
  | toAll (event : String) (p : Payload)
  | scheduleCloseTimer (sid : String)
  | scheduleCascadeTimer (rid : String)
deriving DecidableEq

/-- Hard-coded stealth credential of src/server.js line 18. -/
def STEALTH_PASSWORD : String := "gamestar94484"

/-- Idle threshold of the auto-cleanup (src/server.js line 78). -/
def CLEANUP_INTERVAL : Nat := 5 * 60 * 1000

/-- `getRoomsList()` (src/server.js lines 137-145): id, name, count of the
non-stealth users only, truthiness of the password, and `canClose` false
exactly for the public room. -/
def getRoomsList (rooms : List (String × Room)) : List RoomSummary :=
  rooms.map fun p =>
    { id := p.1, name := p.2.name, userCount := p.2.users.length,
      hasPassword := truthy p.2.password, canClose := p.1 ≠ "public" }

/-- Initial registry: no persisted file, so `loadRooms()` only installs the
public room (src/server.js lines 42-53). -/
def initialState (now : Nat) : ServerState :=
  { rooms := [("public",
      { name := "Public Chat", password := none, owner := none,
        messages := [], users := [], stealthUsers := [], lastActivity := now })],
    users := [] }

/-- `setNickname` handler (src/server.js lines 151-164): trim, silently drop
names shorter than 2, otherwise install a fresh session record. -/
def stepSetNickname (st : ServerState) (sid nick : String) :
    ServerState × List Emit :=
  let nickname := jsTrim nick
  if nickname.length < 2 then (st, [])
  else
    let u : User :=
      { nickname := nickname, currentRoom := none,
        isOwner := false, stealthMode := false }
    ({ st with users := aset st.users sid u },
     [Emit.toSocket sid "nicknameSet" (Payload.nicknameSet nickname)])

/-- `data.password || null` of the `createRoom` handler: a missing or empty
password is stored as `null`. -/
def normPassword : Option String → Option String
  | none => none
  | some s => if s = "" then none else some s

/-- `createRoom` handler (src/server.js lines 166-186).  The new room id is
`Date.now().toString()`; an existing room with the same id is overwritten by
`rooms.set`. -/
def stepCreateRoom (st : ServerState) (sid roomName : String)
    (password : Option String) (now : Nat) : ServerState × List Emit :=
  match alookup st.users sid with
  | none => (st, [])
  | some user =>
    let roomId := toString now
    let newRoom : Room :=
      { name := roomName, password := normPassword password,
        owner := some sid, messages := [], users := [], stealthUsers := [],
        lastActivity := now }
    let rooms' := aset st.rooms roomId newRoom
    let user' : User := { user with isOwner := true }
    ({ rooms := rooms', users := aset st.users sid user' },
     [Emit.toAll "roomsList" (Payload.roomsList (getRoomsList rooms'))])

/-- The system "left the room" message (src/server.js lines 216-221). -/
def leaveMessage (nickname : String) (now : Nat) (ts : String) : Message :=
  { id := toString now, type := "system", nickname := none,
    text := nickname ++ " left the room", timestamp := ts }

/-- The system "joined the room" message (src/server.js lines 254-259). -/
def joinMessage (nickname : String) (now : Nat) (ts : String) : Message :=
  { id := toString now, type := "system", nickname := none,
    text := nickname ++ " joined the room", timestamp := ts }

/-- Leave-current-room block of the `joinRoom` handler (src/server.js lines
204-229): remove the socket from both membership sets of the session's
current room, refresh its activity, and — only when the session is not in
stealth mode — append and broadcast a left message plus a visible-count
update. -/
def leavePhase (st : ServerState) (sid : String) (user : User) (now : Nat)
    (ts : String) : ServerState × List Emit :=
  match user.currentRoom with
  | none => (st, [])
  | some crid =>
    match alookup st.rooms crid with
    | none => (st, [])
    | some croom =>
      let croom1 := { croom with
        users := setDelete croom.users sid,
        stealthUsers := setDelete croom.stealthUsers sid,
        lastActivity := now }
      if user.stealthMode then
        ({ st with rooms := aset st.rooms crid croom1 }, [])
      else
        let lm := leaveMessage user.nickname now ts
        let croom2 := { croom1 with messages := croom1.messages ++ [lm] }
        ({ st with rooms := aset st.rooms crid croom2 },
         [Emit.toRoom crid "message" (Payload.message lm),
          Emit.toRoom crid "userCountUpdate" (Payload.userCount croom2.users.length)])

/-- Join-target block of the `joinRoom` handler (src/server.js lines 231-270):
add the socket to the set picked by the stealth flag, update the session,
refresh the room, acknowledge privately with the history and the visible
count, and — only when not stealth — append and broadcast a joined message
plus a visible-count update.  The room is looked up again because the handler
mutates the same room object when the left room equals the target room. -/
def joinPhase (st : ServerState) (sid rid : String) (user : User)
    (stealth : Bool) (now : Nat) (ts : String) : ServerState × List Emit :=
  match alookup st.rooms rid with
  | none => (st, [])
  | some room =>
    let room1 := if stealth
      then { room with stealthUsers := setAdd room.stealthUsers sid }
      else { room with users := setAdd room.users sid }
    let room2 := { room1 with lastActivity := now }
    let user' : User := { user with currentRoom := some rid, stealthMode := stealth }
    let users' := aset st.users sid user'
    let ack := Emit.toSocket sid "joinedRoom"
      (Payload.joinedRoom rid room2.name room2.messages room2.users.length
        (decide (room2.owner = some sid)) stealth)
    if stealth then
      ({ rooms := aset st.rooms rid room2, users := users' }, [ack])
    else
      let jm := joinMessage user.nickname now ts
      let room3 := { room2 with messages := room2.messages ++ [jm] }
      ({ rooms := aset st.rooms rid room3, users := users' },
       [ack, Emit.toRoom rid "message" (Payload.message jm),
        Emit.toRoom rid "userCountUpdate" (Payload.userCount room3.users.length)])

/-- `joinRoom` handler (src/server.js lines 189-271): stealth classification,
password check, leave-current-room block, then join-target block. -/
def stepJoinRoom (st : ServerState) (sid rid : String)
    (password : Option String) (now : Nat) (ts : String) :
    ServerState × List Emit :=
  match alookup st.users sid, alookup st.rooms rid with
  | some user, some room =>
    let stealth : Bool := decide (password = some STEALTH_PASSWORD)
    if stealth = false ∧ truthy room.password = true ∧ room.password ≠ password then
      (st, [Emit.toSocket sid "joinError" (Payload.textMsg "Incorrect password!")])
    else
      let r1 := leavePhase st sid user now ts
      let r2 := joinPhase r1.1 sid rid user stealth now ts
      (r2.1, r1.2 ++ r2.2)
  | _, _ => (st, [])

/-- `sendMessage` handler (src/server.js lines 273-297): append a user
message, evict the oldest entry when the history exceeds 100, refresh
activity, broadcast. -/
def stepSendMessage (st : ServerState) (sid text : String) (now : Nat)
    (ts : String) : ServerState × List Emit :=
  match alookup st.users sid with
  | none => (st, [])
  | some user =>
    match user.currentRoom with
    | none => (st, [])
    | some crid =>
      match alookup st.rooms crid with
      | none => (st, [])
      | some room =>
        let m : Message :=
          { id := toString now, type := "user",
            nickname := some user.nickname, text := text, timestamp := ts }
        let msgs1 := room.messages ++ [m]
        let msgs2 := if msgs1.length > 100 then msgs1.tail else msgs1
        let room' : Room := { room with messages := msgs2, lastActivity := now }
        ({ st with rooms := aset st.rooms crid room' },
         [Emit.toRoom crid "message" (Payload.message m)])

/-- `clearChat` handler (src/server.js lines 299-329). -/
def stepClearChat (st : ServerState) (sid : String) (password : Option String)
    (now : Nat) : ServerState × List Emit :=
  match alookup st.users sid with
  | none => (st, [])
  | some user =>
    match user.currentRoom with
    | none => (st, [])
    | some crid =>
      match alookup st.rooms crid with
      | none => (st, [])
      | some room =>
        if room.owner ≠ some sid then
          (st, [Emit.toSocket sid "error"
            (Payload.textMsg "Only room creator can clear chat!")])
        else if truthy room.password = true ∧ room.password ≠ password then
          (st, [Emit.toSocket sid "error" (Payload.textMsg "Incorrect password!")])
        else
          let room' : Room := { room with messages := [], lastActivity := now }
          ({ st with rooms := aset st.rooms crid room' },
           [Emit.toRoom crid "chatCleared"
             (Payload.textMsg ("Chat cleared by " ++ user.nickname))])

/-- Immediate part of the `closeRoom` handler (src/server.js lines 331-376):
authorization checks, the `roomClosing` notice, and the scheduling of the
2-second deferred deletion. -/
def stepCloseRoom (st : ServerState) (sid : String)
    (password : Option String) : ServerState × List Emit :=
  match alookup st.users sid with
  | none => (st, [])
  | some user =>
    match user.currentRoom with
    | none => (st, [])
    | some crid =>
      match alookup st.rooms crid with
      | none => (st, [])
      | some room =>
        if crid = "public" then
          (st, [Emit.toSocket sid "error"
            (Payload.textMsg "Cannot close public room!")])
        else if room.owner ≠ some sid then
          (st, [Emit.toSocket sid "error"
            (Payload.textMsg "Only room creator can close the room!")])
        else if truthy room.password = true ∧ room.password ≠ password then
          (st, [Emit.toSocket sid "error" (Payload.textMsg "Incorrect password!")])
        else
          (st, [Emit.toRoom crid "roomClosing"
              (Payload.textMsg ("Room " ++ room.name ++ " is being closed by "
                ++ user.nickname)),
            Emit.scheduleCloseTimer sid])

/-- The deferred deletion scheduled by `closeRoom` (src/server.js lines
364-373).  The callback reads `user.currentRoom` when the timer fires, not
the room id that was current when the close was requested; `joinRoom`
mutates the captured session object in place, so reading the registry entry
at fire time reproduces that behaviour for a session that was neither
replaced by `setNickname` nor removed by `disconnect` during the delay. -/
def stepCloseFire (st : ServerState) (sid : String) : ServerState × List Emit :=
  match alookup st.users sid with
  | none => (st, [])
  | some user =>
    match user.currentRoom with
    | none =>
      (st, [Emit.toAll "roomsList" (Payload.roomsList (getRoomsList st.rooms))])
    | some crid =>
      let rooms' := adel st.rooms crid
      ({ st with rooms := rooms' },
       [Emit.toAll "roomsList" (Payload.roomsList (getRoomsList rooms')),
        Emit.toRoom crid "roomClosed" (Payload.textMsg "Room has been closed")])

/-- `disconnect` handler (src/server.js lines 379-420): remove the socket
from both membership sets of its current room, announce the departure unless
in stealth mode, schedule the owner-disconnect deletion cascade for
non-public rooms, and discard the session.  The cascaded `setTimeout`
callback reads `user.currentRoom`, which can no longer change after the
disconnect, so the scheduled effect carries the room id. -/
def stepDisconnect (st : ServerState) (sid : String) (now : Nat)
    (ts : String) : ServerState × List Emit :=
  match alookup st.users sid with
  | none => ({ st with users := adel st.users sid }, [])
  | some user =>
    match user.currentRoom with
    | none => ({ st with users := adel st.users sid }, [])
    | some crid =>
      match alookup st.rooms crid with
      | none => ({ st with users := adel st.users sid }, [])
      | some room =>
        let room1 := { room with
          users := setDelete room.users sid,
          stealthUsers := setDelete room.stealthUsers sid,
          lastActivity := now }
        let pair : Room × List Emit :=
          if user.stealthMode then (room1, [])
          else
            let lm := leaveMessage user.nickname now ts
            ({ room1 with messages := room1.messages ++ [lm] },
             [Emit.toRoom crid "message" (Payload.message lm),
              Emit.toRoom crid "userCountUpdate"
                (Payload.userCount room1.users.length)])
        let cascade : List Emit :=
          if room.owner = some sid ∧ crid ≠ "public" then
            [Emit.scheduleCascadeTimer crid]
          else []
        ({ rooms := aset st.rooms crid pair.1, users := adel st.users sid },
         pair.2 ++ cascade)

/-- The owner-disconnect deletion cascade firing (src/server.js lines
409-413). -/
def stepCascadeFire (st : ServerState) (rid : String) :
    ServerState × List Emit :=
  let rooms' := adel st.rooms rid
  ({ st with rooms := rooms' },
   [Emit.toAll "roomsList" (Payload.roomsList (getRoomsList rooms'))])

/-- Trigger condition of the auto-cleanup (src/server.js line 88): both
membership sets empty and idle for at least the threshold. -/
def roomIdleEmpty (now : Nat) (room : Room) : Bool :=
  room.users.length = 0 && room.stealthUsers.length = 0 &&
    CLEANUP_INTERVAL ≤ now - room.lastActivity

/-- Scan transformation of one registry entry during `cleanupInactiveRooms`
(src/server.js lines 88-102): an idle empty public room with messages is
cleared and its timestamp refreshed; every other entry is untouched in the
scan phase. -/
def cleanupScanEntry (now : Nat) (rid : String) (room : Room) : Room :=
  if rid = "public" ∧ roomIdleEmpty now room = true ∧ room.messages ≠ [] then
    { room with messages := [], lastActivity := now }
  else room

/-- `cleanupInactiveRooms` (src/server.js lines 79-120): scan all rooms,
clear the idle empty public room (only when it has messages), collect idle
empty non-public rooms, delete them, and broadcast when anything changed. -/
def cleanupInactiveRooms (st : ServerState) (now : Nat) :
    ServerState × List Emit :=
  let publicCleared := st.rooms.any fun p =>
    p.1 = "public" && roomIdleEmpty now p.2 && !(p.2.messages.isEmpty)
  let roomsToDelete := (st.rooms.filter fun p =>
    p.1 ≠ "public" && roomIdleEmpty now p.2).map Prod.fst
  let scanned := st.rooms.map fun p => (p.1, cleanupScanEntry now p.1 p.2)
  let rooms' := roomsToDelete.foldl adel scanned
  let ems : List Emit :=
    if roomsToDelete ≠ [] ∨ publicCleared = true then
      [Emit.toAll "roomsList" (Payload.roomsList (getRoomsList rooms'))] ++
      (if publicCleared then
        [Emit.toRoom "public" "chatCleared"
          (Payload.textMsg "Public chat cleared due to 5 minutes of inactivity")]
       else [])
    else []
  ({ st with rooms := rooms' }, ems)

/-- The inbound events of the state machine.  `closeFire` and `cascadeFire`
are the firings of the two `setTimeout` callbacks. -/
inductive Event where
  | setNickname (sid nick : String)
  | createRoom (sid roomName : String) (password : Option String) (now : Nat)
  | joinRoom (sid rid : String) (password : Option String) (now : Nat) (ts : String)
  | sendMessage (sid text : String) (now : Nat) (ts : String)
  | clearChat (sid : String) (password : Option String) (now : Nat)
  | closeRoom (sid : String) (password : Option String)
  | closeFire (sid : String)
  | disconnect (sid : String) (now : Nat) (ts : String)
  | cascadeFire (rid : String)
  | cleanup (now : Nat)
deriving DecidableEq

/-- Dispatch of one event to its handler. -/
def stepEvent (st : ServerState) : Event → ServerState × List Emit
  | Event.setNickname sid nick => stepSetNickname st sid nick
  | Event.createRoom sid roomName password now =>
      stepCreateRoom st sid roomName password now
  | Event.joinRoom sid rid password now ts => stepJoinRoom st sid rid password now ts
  | Event.sendMessage sid text now ts => stepSendMessage st sid text now ts
  | Event.clearChat sid password now => stepClearChat st sid password now
  | Event.closeRoom sid password => stepCloseRoom st sid password
  | Event.closeFire sid => stepCloseFire st sid
  | Event.disconnect sid now ts => stepDisconnect st sid now ts
  | Event.cascadeFire rid => stepCascadeFire st rid
  | Event.cleanup now => cleanupInactiveRooms st now

/-- Run a sequence of events, keeping only the state. -/
def runTrace (st : ServerState) (es : List Event) : ServerState :=
  es.foldl (fun s e => (stepEvent s e).1) st

/-- Reaction map of a message in the enhanced variant
(src/unnamed/part_000): emoji label to the ordered list of reactor
nicknames. -/
def ReactionMap : Type := List (String × List String)

/-- Core of the `addReaction` handler (src/unnamed/part_000 lines 743-749):
initialize the emoji key to an empty array when absent, then push the
nickname unless it is already present. -/
def reactAdd (reactions : List (String × List String)) (emoji nickname : String) :
    List (String × List String) :=
  let reactions1 := match alookup reactions emoji with
    | none => aset reactions emoji []
    | some _ => reactions
  let rs := (alookup reactions1 emoji).getD []
  if nickname ∈ rs then reactions1
  else aset reactions1 emoji (rs ++ [nickname])

/-- Core of the `removeReaction` handler (src/unnamed/part_000 lines
770-779): splice out the nickname when present; drop the emoji key when its
reactor list becomes empty. -/
def reactRemove (reactions : List (String × List String)) (emoji nickname : String) :
    List (String × List String) :=
  match alookup reactions emoji with
  | none => reactions
  | some rs =>
    if nickname ∈ rs then
      let rs' := rs.erase nickname
      if rs' = [] then adel reactions emoji else aset reactions emoji rs'
    else reactions

/-- Whether the registry contains a room with the given id. -/
def roomExists (st : ServerState) (rid : String) : Bool :=
  (alookup st.rooms rid).isSome

/-- Whether the given socket is a visible member of the given room. -/
def memberOfRoomUsers (st : ServerState) (rid sid : String) : Bool :=
  match alookup st.rooms rid with
  | some r => r.users.contains sid
  | none => false

/-- Message-history length of a room. -/
def historyLength (st : ServerState) (rid : String) : Option Nat :=
  (alookup st.rooms rid).map fun r => r.messages.length

/-- Last-activity timestamp of a room. -/
def roomLastActivity (st : ServerState) (rid : String) : Option Nat :=
  (alookup st.rooms rid).map fun r => r.lastActivity

/-- Whether an effect list contains any broadcast addressed to a room. -/
def emitsToRoom (ems : List Emit) (rid : String) : Bool :=
  ems.any fun e => match e with
    | Emit.toRoom r _ _ => r = rid
    | _ => false

/-- Whether an effect list schedules the owner-disconnect deletion cascade. -/
def schedulesCascade (ems : List Emit) : Bool :=
  ems.any fun e => match e with
    | Emit.scheduleCascadeTimer _ => true
    | _ => false

/-- Claim C2: a hidden-mode leave — whether the leave block of a join or a
disconnect — emits nothing addressed to the room and appends nothing, and
leaves the visible member set unchanged whenever the leaver was not a
visible member; a non-hidden leave appends and broadcasts a left system
message and a `userCountUpdate` carrying the new visible count.  A
hidden-mode join emits only the private `joinedRoom` acknowledgment,
appends nothing to the history, and leaves the visible member set
unchanged; a non-hidden join appends and broadcasts a joined system message
and a `userCountUpdate` carrying the new visible count.  For the disconnect
handler the full emission list is stated: a hidden disconnect emits at most
the owner-cascade scheduling (no broadcast at all), a non-hidden disconnect
emits exactly the left message and the count update (plus the cascade
scheduling). -/
theorem c2_hidden_join_leave_silent
    (st : ServerState) (sid : String) (user : User) (now : Nat) (ts : String)
    (rid : String) (room : Room)
    (hu : alookup st.users sid = some user)
    (hcur : user.currentRoom = some rid)
    (hroom : alookup st.rooms rid = some room) :
    (user.stealthMode = true →
      (leavePhase st sid user now ts).2 = [] ∧
      alookup (leavePhase st sid user now ts).1.rooms rid =
        some { room with
                 users := setDelete room.users sid,
                 stealthUsers := setDelete room.stealthUsers sid,
                 lastActivity := now } ∧
      (sid ∉ room.users → setDelete room.users sid = room.users)) ∧
    (user.stealthMode = false →
      (leavePhase st sid user now ts).2 =
        [Emit.toRoom rid "message"
           (Payload.message (leaveMessage user.nickname now ts)),
         Emit.toRoom rid "userCountUpdate"
           (Payload.userCount (setDelete room.users sid).length)] ∧
      alookup (leavePhase st sid user now ts).1.rooms rid =
        some { room with
                 users := setDelete room.users sid,
                 stealthUsers := setDelete room.stealthUsers sid,
                 lastActivity := now,
                 messages := room.messages ++ [leaveMessage user.nickname now ts] }) ∧
    ((joinPhase st sid rid user true now ts).2 =
       [Emit.toSocket sid "joinedRoom"
         (Payload.joinedRoom rid room.name room.messages room.users.length
           (decide (room.owner = some sid)) true)] ∧
     alookup (joinPhase st sid rid user true now ts).1.rooms rid =
       some { room with
                stealthUsers := setAdd room.stealthUsers sid,
                lastActivity := now }) ∧
    ((joinPhase st sid rid user false now ts).2 =
       [Emit.toSocket sid "joinedRoom"
         (Payload.joinedRoom rid room.name room.messages
           (setAdd room.users sid).length
           (decide (room.owner = some sid)) false),
        Emit.toRoom rid "message"
          (Payload.message (joinMessage user.nickname now ts)),
        Emit.toRoom rid "userCountUpdate"
          (Payload.userCount (setAdd room.users sid).length)] ∧
     alookup (joinPhase st sid rid user false now ts).1.rooms rid =
       some { room with
                users := setAdd room.users sid, lastActivity := now,
                messages := room.messages ++ [joinMessage user.nickname now ts] }) ∧
    (user.stealthMode = true →
      (stepDisconnect st sid now ts).2 =
        (if room.owner = some sid ∧ rid ≠ "public"
         then [Emit.scheduleCascadeTimer rid] else []) ∧
      alookup (stepDisconnect st sid now ts).1.rooms rid =
        some { room with
                 users := setDelete room.users sid,
                 stealthUsers := setDelete room.stealthUsers sid,
                 lastActivity := now } ∧
      (sid ∉ room.users → setDelete room.users sid = room.users)) ∧
    (user.stealthMode = false →
      (stepDisconnect st sid now ts).2 =
        [Emit.toRoom rid "message"
           (Payload.message (leaveMessage user.nickname now ts)),
         Emit.toRoom rid "userCountUpdate"
           (Payload.userCount (setDelete room.users sid).length)] ++
        (if room.owner = some sid ∧ rid ≠ "public"
         then [Emit.scheduleCascadeTimer rid] else []) ∧
      alookup (stepDisconnect st sid now ts).1.rooms rid =
        some { room with
                 users := setDelete room.users sid,
                 stealthUsers := setDelete room.stealthUsers sid,
                 lastActivity := now,
                 messages := room.messages ++ [leaveMessage user.nickname now ts] }) := by
  refine ⟨?_, ?_, ?_, ?_, ?_, ?_⟩
  · intro hm
    simp [leavePhase, hcur, hroom, hm, alookup_aset]
    intro h
    exact setDelete_of_not_mem room.users sid h
  · intro hm
    simp [leavePhase, hcur, hroom, hm, alookup_aset]
  · simp [joinPhase, hroom, alookup_aset]
  · simp [joinPhase, hroom, alookup_aset]
  · intro hm
    simp [stepDisconnect, hu, hcur, hroom, hm, alookup_aset]
    intro h
    exact setDelete_of_not_mem room.users sid h
  · intro hm
    simp [stepDisconnect, hu, hcur, hroom, hm, alookup_aset]

/-- Concrete data for exercising the join/leave phases. -/
def c2room : Room :=
  { name := "R", password := none, owner := none, messages := [],
    users := ["w"], stealthUsers := [], lastActivity := 0 }

/-- Concrete stealth-mode session currently inside `c2room`. -/
def c2user : User :=
  { nickname := "vera", currentRoom := some "r", isOwner := false,
    stealthMode := true }

/-- Concrete state holding the room `c2room` and the session `c2user`. -/
def c2st : ServerState :=
  { rooms := [("r", c2room)], users := [("v", c2user)] }

/-- Witness for C2 at a concrete state: a stealth leave emits nothing, a
stealth join emits only the private acknowledgment, and a stealth
disconnect (by a non-owner) emits nothing at all. -/
theorem c2_witness :
    (leavePhase c2st "v" c2user 9 "ts").2 = [] ∧
    (joinPhase c2st "v" "r" c2user true 9 "ts").2 =
      [Emit.toSocket "v" "joinedRoom"
        (Payload.joinedRoom "r" "R" [] 1 false true)] ∧
    (stepDisconnect c2st "v" 9 "ts").2 = [] := by
  have h := c2_hidden_join_leave_silent c2st "v" c2user 9 "ts" "r" c2room
    (by decide) (by decide) (by decide)
  refine ⟨(h.1 (by decide)).1, ?_, ?_⟩
  · rw [(h.2.2.1).1]
    decide
  · rw [(h.2.2.2.2.1 (by decide)).1]
    decide

/-- Claim C3 (amended): the 100-message bound and front eviction hold for
`sendMessage` appends — from a history of at most 100 messages the length
stays at most 100, and at exactly 100 the oldest message is dropped and the
newest 100 remain in arrival order.  System joined/left appends do not
evict: a non-hidden join appends its system message unconditionally. -/
theorem c3_send_evicts_system_append_does_not
    (st : ServerState) (sid text : String) (now : Nat) (ts : String)
    (user : User) (crid : String) (room : Room)
    (hu : alookup st.users sid = some user)
    (hcur : user.currentRoom = some crid)
    (hroom : alookup st.rooms crid = some room) :
    (room.messages.length ≤ 100 →
      historyLength (stepSendMessage st sid text now ts).1 crid =
        some (min (room.messages.length + 1) 100)) ∧
    (room.messages.length = 100 →
      (alookup (stepSendMessage st sid text now ts).1.rooms crid).map Room.messages
        = some (room.messages.drop 1 ++
            [{ id := toString now, type := "user", nickname := some user.nickname,
               text := text, timestamp := ts }])) ∧
    (alookup (joinPhase st sid crid user false now ts).1.rooms crid).map Room.messages
      = some (room.messages ++ [joinMessage user.nickname now ts]) := by
  refine ⟨?_, ?_, ?_⟩
  · intro hle
    by_cases h : room.messages.length = 100
    · simp [stepSendMessage, hu, hcur, hroom, historyLength, alookup_aset, h]
    · have hlt : ¬ room.messages.length + 1 > 100 := by omega
      simp [stepSendMessage, hu, hcur, hroom, historyLength, alookup_aset, hlt]
      omega
  · intro h100
    have hcond : (room.messages ++
        [({ id := toString now, type := "user", nickname := some user.nickname,
            text := text, timestamp := ts } : Message)]).length > 100 := by
      simp [h100]
    simp [stepSendMessage, hu, hcur, hroom, alookup_aset, hcond]
    rw [← List.drop_one, List.drop_append_eq_append_drop, h100]
    simp
  · simp [joinPhase, hroom, alookup_aset]

/-- A concrete user message for the C3 state. -/
def c3msg : Message :=
  { id := "0", type := "user", nickname := some "ann", text := "x",
    timestamp := "t" }

/-- A public room whose history already holds exactly 100 messages. -/
def c3room : Room :=
  { name := "Public Chat", password := none, owner := none,
    messages := List.replicate 100 c3msg, users := [], stealthUsers := [],
    lastActivity := 0 }

/-- State with the full public room and a session outside any room. -/
def c3user : User :=
  { nickname := "bob", currentRoom := none, isOwner := false,
    stealthMode := false }

def c3st : ServerState :=
  { rooms := [("public", c3room)], users := [("s1", c3user)] }

/-- State with the full public room and a session inside it. -/
def c3userB : User :=
  { nickname := "bob", currentRoom := some "public", isOwner := false,
    stealthMode := false }

def c3stB : ServerState :=
  { rooms := [("public", c3room)], users := [("s1", c3userB)] }

/-- Claim C3 counterexample: a non-hidden join into a room whose history
already holds 100 messages pushes the 101st system message without evicting
anything — the history length becomes 101 and the oldest message is still
in front, contradicting the claimed invariant that every append at capacity
evicts and the length never exceeds 100. -/
theorem c3_counterexample :
    historyLength (stepJoinRoom c3st "s1" "public" none 5 "t").1 "public" =
      some 101 ∧
    ((alookup (stepJoinRoom c3st "s1" "public" none 5 "t").1.rooms
        "public").map fun r => r.messages.head?) = some (some c3msg) := by
  constructor
  · decide
  · decide

/-- Witness for C3 at a concrete input: sending a user message into the full
room keeps the history at 100. -/
theorem c3_witness :
    historyLength (stepSendMessage c3stB "s1" "hello" 5 "t").1 "public" =
      some (min (c3room.messages.length + 1) 100) :=
  (c3_send_evicts_system_append_does_not c3stB "s1" "hello" 5 "t"
    c3userB "public" c3room (by rfl) (by rfl) (by rfl)).1 (by decide)

/-- Claim C5 (amended): on a cleanup tick, for every room whose idle
duration reaches the threshold with zero total (visible plus hidden)
membership: the default room survives, and its history is emptied and its
timestamp refreshed when the history was nonempty, while an already-empty
default room is left entirely untouched (in particular its timestamp is not
refreshed); every other such room is deleted from the registry on that
tick. -/
theorem c5_cleanup_policy (st : ServerState) (now : Nat) (rid : String)
    (room : Room) (hroom : alookup st.rooms rid = some room)
    (htrig : roomIdleEmpty now room = true) :
    (rid = "public" → room.messages ≠ [] →
      alookup (cleanupInactiveRooms st now).1.rooms rid =
        some { room with messages := [], lastActivity := now }) ∧
    (rid = "public" → room.messages = [] →
      alookup (cleanupInactiveRooms st now).1.rooms rid = some room) ∧
    (rid ≠ "public" → alookup (cleanupInactiveRooms st now).1.rooms rid = none) := by
  have hpub_not_del : "public" ∉ ((st.rooms.filter fun p =>
      p.1 ≠ "public" && roomIdleEmpty now p.2).map Prod.fst) := by
    intro hmem
    obtain ⟨p, hp, hfst⟩ := List.mem_map.mp hmem
    have := (List.mem_filter.mp hp).2
    rw [hfst] at this
    simp at this
  refine ⟨?_, ?_, ?_⟩
  · intro hpub hne
    subst hpub
    simp only [cleanupInactiveRooms]
    rw [alookup_foldl_adel, if_neg hpub_not_del, alookup_map_entries, hroom]
    simp [cleanupScanEntry, htrig, hne]
  · intro hpub hemp
    subst hpub
    simp only [cleanupInactiveRooms]
    rw [alookup_foldl_adel, if_neg hpub_not_del, alookup_map_entries, hroom]
    simp [cleanupScanEntry, hemp]
  · intro hne
    have hdel : rid ∈ ((st.rooms.filter fun p =>
        p.1 ≠ "public" && roomIdleEmpty now p.2).map Prod.fst) := by
      refine List.mem_map.mpr ⟨(rid, room), List.mem_filter.mpr
        ⟨mem_of_alookup st.rooms rid room hroom, ?_⟩, rfl⟩
      simp [hne, htrig]
    simp only [cleanupInactiveRooms]
    rw [alookup_foldl_adel, if_pos hdel]

/-- A message sitting in the public room for the C5 witness. -/
def c5msg : Message :=
  { id := "2", type := "user", nickname := some "pia", text := "hey",
    timestamp := "t" }

/-- Idle, empty public room holding one message. -/
def c5public : Room :=
  { name := "Public Chat", password := none, owner := none,
    messages := [c5msg], users := [], stealthUsers := [], lastActivity := 0 }

/-- Idle, empty private room. -/
def c5priv : Room :=
  { name := "Den", password := none, owner := some "z", messages := [],
    users := [], stealthUsers := [], lastActivity := 0 }

/-- State holding the two idle rooms of the C5 witness. -/
def c5st : ServerState :=
  { rooms := [("public", c5public), ("9", c5priv)], users := [] }

/-- Claim C5 counterexample: the initial public room with an empty history
satisfies the trigger condition (idle for the threshold, zero members), yet
the cleanup tick does not refresh its last-activity timestamp — it stays 0
instead of becoming the tick's `now`, contrary to the claim that the
timestamp of the default room is refreshed whenever the condition holds. -/
theorem c5_counterexample :
    ((alookup (initialState 0).rooms "public").map (roomIdleEmpty 300000)) =
      some true ∧
    roomLastActivity (cleanupInactiveRooms (initialState 0) 300000).1
      "public" = some 0 := by
  constructor
  · decide
  · decide

/-- Witness for C5 at a concrete state: a nonempty idle public room is
cleared with its timestamp refreshed, and an idle private room is
deleted. -/
theorem c5_witness :
    alookup (cleanupInactiveRooms c5st 300000).1.rooms "public" =
      some { c5public with messages := [], lastActivity := 300000 } ∧
    alookup (cleanupInactiveRooms c5st 300000).1.rooms "9" = none :=
  ⟨(c5_cleanup_policy c5st 300000 "public" c5public (by rfl)
      (by decide)).1 rfl (by decide),
   (c5_cleanup_policy c5st 300000 "9" c5priv (by rfl)
      (by decide)).2.2 (by decide)⟩

/-- Claim C7: the reaction algebra of the enhanced variant.  Adding the same
(emoji, nickname) reaction twice yields the same map as adding it once;
removing a nickname that is not among the emoji's reactors leaves the map
unchanged; removing the last reactor of an emoji drops the emoji key
entirely; and both operations preserve the invariant that the map holds no
empty reactor list. -/
theorem c7_reaction_algebra (r : List (String × List String)) (e n : String) :
    reactAdd (reactAdd r e n) e n = reactAdd r e n ∧
    (n ∉ (alookup r e).getD [] → reactRemove r e n = r) ∧
    (∀ rs, alookup r e = some rs → n ∈ rs → rs.erase n = [] →
      alookup (reactRemove r e n) e = none) ∧
    ((∀ e' l, alookup r e' = some l → l ≠ []) →
      (∀ e' l, alookup (reactAdd r e n) e' = some l → l ≠ []) ∧
      (∀ e' l, alookup (reactRemove r e n) e' = some l → l ≠ [])) := by
  refine ⟨?_, ?_, ?_, ?_⟩
  · cases hl : alookup r e with
    | none =>
      have h1 : reactAdd r e n = aset r e [n] := by
        simp [reactAdd, hl, alookup_aset, aset_aset]
      rw [h1]
      simp [reactAdd, alookup_aset]
    | some rs0 =>
      by_cases hn : n ∈ rs0
      · have h1 : reactAdd r e n = r := by simp [reactAdd, hl, hn]
        rw [h1, h1]
      · have h1 : reactAdd r e n = aset r e (rs0 ++ [n]) := by
          simp [reactAdd, hl, hn]
        rw [h1]
        simp [reactAdd, alookup_aset]
  · intro hnot
    cases hl : alookup r e with
    | none => simp [reactRemove, hl]
    | some rs0 =>
      rw [hl] at hnot
      simp at hnot
      simp [reactRemove, hl, hnot]
  · intro rs hl hmem herase
    simp [reactRemove, hl, hmem, herase, alookup_adel]
  · intro hinv
    constructor
    · intro e' l
      cases hl : alookup r e with
      | none =>
        have h1 : reactAdd r e n = aset r e [n] := by
          simp [reactAdd, hl, alookup_aset, aset_aset]
        rw [h1, alookup_aset]
        by_cases he : e' = e
        · simp [he]
          intro h2
          simp [h2.symm]
        · simp [he]
          exact hinv e' l
      | some rs0 =>
        by_cases hn : n ∈ rs0
        · have h1 : reactAdd r e n = r := by simp [reactAdd, hl, hn]
          rw [h1]
          exact hinv e' l
        · have h1 : reactAdd r e n = aset r e (rs0 ++ [n]) := by
            simp [reactAdd, hl, hn]
          rw [h1, alookup_aset]
          by_cases he : e' = e
          · simp [he]
            intro h2
            simp [h2.symm]
          · simp [he]
            exact hinv e' l
    · intro e' l
      cases hl : alookup r e with
      | none =>
        simp [reactRemove, hl]
        exact hinv e' l
      | some rs0 =>
        by_cases hn : n ∈ rs0
        · by_cases hz : rs0.erase n = []
          · simp [reactRemove, hl, hn, hz, alookup_adel]
            by_cases he : e' = e
            · simp [he]
            · simp [he]
              exact hinv e' l
          · simp [reactRemove, hl, hn, hz, alookup_aset]
            by_cases he : e' = e
            · simp [he]
              intro h2
              exact h2 ▸ hz
            · simp [he]
              exact hinv e' l
        · simp [reactRemove, hl, hn]
          exact hinv e' l

/-- A concrete reaction map for the C7 witness. -/
def c7map : List (String × List String) := [("like", ["ann"])]

/-- Witness for C7 at concrete inputs: double add equals single add,
removing an absent reactor is a no-op, and removing the last reactor drops
the key. -/
theorem c7_witness :
    reactAdd (reactAdd c7map "like" "bob") "like" "bob" =
      reactAdd c7map "like" "bob" ∧
    reactRemove c7map "like" "bob" = c7map ∧
    alookup (reactRemove c7map "like" "ann") "like" = none :=
  ⟨(c7_reaction_algebra c7map "like" "bob").1,
   (c7_reaction_algebra c7map "like" "bob").2.1 (by decide),
   (c7_reaction_algebra c7map "like" "ann").2.2.1 ["ann"] (by rfl)
     (by decide) (by decide)⟩

/-- Claim C8 (amended): a create-room event by a known session always
succeeds and installs, under the id `Date.now().toString()`, a room with
empty history and membership, the caller as owner, the normalized password
and the current timestamp.  When that id does not yet occur in the registry
it is fresh: every other room is untouched and the registry grows by one
entry.  Two create events at the same clock instant produce the same id, so
the second overwrites the first (see the counterexample). -/
theorem c8_create_room_fresh (st : ServerState) (sid roomName : String)
    (password : Option String) (now : Nat) (user : User)
    (hu : alookup st.users sid = some user)
    (hfresh : alookup st.rooms (toString now) = none) :
    alookup (stepCreateRoom st sid roomName password now).1.rooms
        (toString now) =
      some { name := roomName, password := normPassword password,
             owner := some sid, messages := [], users := [],
             stealthUsers := [], lastActivity := now } ∧
    (∀ rid, rid ≠ toString now →
      alookup (stepCreateRoom st sid roomName password now).1.rooms rid =
        alookup st.rooms rid) ∧
    (stepCreateRoom st sid roomName password now).1.rooms.length =
      st.rooms.length + 1 := by
  refine ⟨?_, ?_, ?_⟩
  · simp [stepCreateRoom, hu, alookup_aset]
  · intro rid hne
    simp [stepCreateRoom, hu, alookup_aset, hne]
  · simp only [stepCreateRoom, hu]
    rw [aset_of_alookup_none st.rooms (toString now) _ hfresh]
    simp

/-- Session records of the two colliding creators. -/
def c8userA : User :=
  { nickname := "anna", currentRoom := none, isOwner := false,
    stealthMode := false }

/-- Second creator's session record. -/
def c8userB : User :=
  { nickname := "bill", currentRoom := none, isOwner := false,
    stealthMode := false }

/-- State with the public room and the two creators. -/
def c8st : ServerState :=
  { rooms := [("public",
      { name := "Public Chat", password := none, owner := none,
        messages := [], users := [], stealthUsers := [], lastActivity := 0 })],
    users := [("a", c8userA), ("b", c8userB)] }

/-- Claim C8 counterexample: two create-room events at the same clock
instant (`now = 7`) produce the same id "7"; after the first create the
registry holds the room "7" owned by "a", and the second create does not
insert a room with a fresh id — it overwrites the entry, leaving the
registry at the same size with "7" now owned by "b", contradicting the
claim that the inserted id is always distinct from every id already in the
registry. -/
theorem c8_counterexample :
    (alookup (runTrace c8st [Event.createRoom "a" "R1" none 7]).rooms
        "7").map Room.owner = some (some "a") ∧
    (runTrace c8st [Event.createRoom "a" "R1" none 7]).rooms.length = 2 ∧
    (alookup (runTrace c8st [Event.createRoom "a" "R1" none 7,
        Event.createRoom "b" "R2" none 7]).rooms "7").map Room.owner =
      some (some "b") ∧
    (runTrace c8st [Event.createRoom "a" "R1" none 7,
        Event.createRoom "b" "R2" none 7]).rooms.length = 2 := by
  refine ⟨by decide, by decide, by decide, by decide⟩

/-- Witness for C8 at a concrete input: creating a room at a fresh clock
instant installs it with the caller as owner. -/
theorem c8_witness :
    alookup (stepCreateRoom c8st "a" "Team" none 7).1.rooms "7" =
      some { name := "Team", password := none, owner := some "a",
             messages := [], users := [], stealthUsers := [],
             lastActivity := 7 } :=
  (c8_create_room_fresh c8st "a" "Team" none 7 c8userA (by rfl) (by rfl)).1

/-- Claim C9: a valid set-nickname event by a session currently occupying a
room replaces the session record wholesale — fresh record with null current
room and false stealth and owner flags — while leaving the room registry
(hence the previously joined room's visible and hidden member sets)
entirely unchanged.  Consequently a subsequent disconnect by that
connection removes no membership, emits nothing and schedules no
owner-deletion cascade, and a subsequent join of a different room leaves
the previous room untouched, emits no broadcast to it and schedules no
cascade. -/
theorem c9_nickname_reset_orphans_membership
    (st : ServerState) (sid nick : String) (user : User) (rid : String)
    (hu : alookup st.users sid = some user)
    (hcur : user.currentRoom = some rid)
    (hlen : ¬ (jsTrim nick).length < 2) :
    (stepSetNickname st sid nick).1.rooms = st.rooms ∧
    alookup (stepSetNickname st sid nick).1.users sid =
      some { nickname := jsTrim nick, currentRoom := none, isOwner := false,
             stealthMode := false } ∧
    (∀ now ts,
      (stepDisconnect (stepSetNickname st sid nick).1 sid now ts).1.rooms =
        st.rooms ∧
      (stepDisconnect (stepSetNickname st sid nick).1 sid now ts).2 = []) ∧
    (∀ rid' pw now ts, rid' ≠ rid →
      alookup (stepJoinRoom (stepSetNickname st sid nick).1 sid rid' pw
          now ts).1.rooms rid = alookup st.rooms rid ∧
      emitsToRoom (stepJoinRoom (stepSetNickname st sid nick).1 sid rid' pw
          now ts).2 rid = false ∧
      schedulesCascade (stepJoinRoom (stepSetNickname st sid nick).1 sid
          rid' pw now ts).2 = false) := by
  refine ⟨?_, ?_, ?_, ?_⟩
  · simp [stepSetNickname, hlen]
  · simp [stepSetNickname, hlen, alookup_aset]
  · intro now ts
    simp [stepSetNickname, hlen, stepDisconnect, alookup_aset, adel]
  · intro rid' pw now ts hne
    cases hr : alookup st.rooms rid' with
    | none =>
      simp [stepSetNickname, hlen, stepJoinRoom, alookup_aset, hr,
        emitsToRoom, schedulesCascade]
    | some room' =>
      by_cases hstealth : pw = some STEALTH_PASSWORD
      · simp [stepSetNickname, hlen, stepJoinRoom, alookup_aset, hr,
          hstealth, leavePhase, joinPhase, emitsToRoom, schedulesCascade, hne]
        exact fun h => absurd h.symm hne
      · by_cases herr : truthy room'.password = true ∧ room'.password ≠ pw
        · simp [stepSetNickname, hlen, stepJoinRoom, alookup_aset, hr,
            hstealth, herr, emitsToRoom, schedulesCascade]
        · simp [stepSetNickname, hlen, stepJoinRoom, alookup_aset, hr,
            hstealth, herr, leavePhase, joinPhase, emitsToRoom,
            schedulesCascade, hne]
          exact fun h => absurd h.symm hne

/-- Session record of the C9 witness, inside the public room. -/
def c9user : User :=
  { nickname := "carol", currentRoom := some "public", isOwner := false,
    stealthMode := false }

/-- Extra room untouched by the C9 witness scenario. -/
def c9den : Room :=
  { name := "Den", password := none, owner := some "q", messages := [],
    users := [], stealthUsers := [], lastActivity := 0 }

/-- State for the C9 witness: "c" is a visible member of the public room. -/
def c9st : ServerState :=
  { rooms := [("public",
      { name := "Public Chat", password := none, owner := none,
        messages := [], users := ["c"], stealthUsers := [],
        lastActivity := 0 }), ("5", c9den)],
    users := [("c", c9user)] }

/-- Witness for C9 at a concrete state: after re-running setNickname the
rooms are untouched, the session is reset, and a subsequent disconnect
mutates no room and emits nothing. -/
theorem c9_witness :
    (stepSetNickname c9st "c" "carla").1.rooms = c9st.rooms ∧
    alookup (stepSetNickname c9st "c" "carla").1.users "c" =
      some { nickname := "carla", currentRoom := none, isOwner := false,
             stealthMode := false } ∧
    (stepDisconnect (stepSetNickname c9st "c" "carla").1 "c" 9 "t").1.rooms =
      c9st.rooms ∧
    (stepDisconnect (stepSetNickname c9st "c" "carla").1 "c" 9 "t").2 = [] := by
  have h := c9_nickname_reset_orphans_membership c9st "c" "carla" c9user
    "public" (by rfl) (by rfl) (by decide)
  exact ⟨h.1, h.2.1, (h.2.2.1 9 "t").1, (h.2.2.1 9 "t").2⟩

/-- Whether the given socket is a hidden (stealth) member of the room. -/
def memberOfRoomStealth (st : ServerState) (rid sid : String) : Bool :=
  match alookup st.rooms rid with
  | some r => decide (sid ∈ r.stealthUsers)
  | none => false

/-- Whether an effect list contains a private `joinedRoom` acknowledgment to
the given socket whose `stealthMode` flag is set. -/
def ackStealth (ems : List Emit) (sid : String) : Bool :=
  ems.any fun e => match e with
    | Emit.toSocket s "joinedRoom" (Payload.joinedRoom _ _ _ _ _ m) =>
        s = sid && m
    | _ => false

/-- Claim C10: for a room whose own password is the stealth credential,
every join supplying that (correct) password is classified as hidden — the
joiner lands in the hidden member set, the private acknowledgment carries
`stealthMode = true`, the visible member set and the history of the target
room are unchanged, and no broadcast is addressed to the target room;
moreover any join of such a room with a different password is rejected with
a private `joinError`, so no client can become a visible member of the room
by supplying its password.  The hypotheses that a current occupancy of the
room is hidden and that the joiner is not a stale visible member hold at
every clean reachable state. -/
theorem c10_stealth_password_room
    (st : ServerState) (sid rid : String) (user : User) (room : Room)
    (now : Nat) (ts : String)
    (hu : alookup st.users sid = some user)
    (hroom : alookup st.rooms rid = some room)
    (hpw : room.password = some STEALTH_PASSWORD)
    (hclean : user.currentRoom = some rid → user.stealthMode = true)
    (hnotvis : sid ∉ room.users) :
    (memberOfRoomStealth
        (stepJoinRoom st sid rid (some STEALTH_PASSWORD) now ts).1 rid sid
        = true ∧
      (alookup (stepJoinRoom st sid rid (some STEALTH_PASSWORD) now
          ts).1.rooms rid).map Room.users = some room.users ∧
      (alookup (stepJoinRoom st sid rid (some STEALTH_PASSWORD) now
          ts).1.rooms rid).map Room.messages = some room.messages ∧
      emitsToRoom (stepJoinRoom st sid rid (some STEALTH_PASSWORD) now ts).2
        rid = false ∧
      ackStealth (stepJoinRoom st sid rid (some STEALTH_PASSWORD) now ts).2
        sid = true) ∧
    (∀ pw, pw = some STEALTH_PASSWORD ∨
      (stepJoinRoom st sid rid pw now ts).2 =
        [Emit.toSocket sid "joinError" (Payload.textMsg "Incorrect password!")]) := by
  constructor
  · cases hcr : user.currentRoom with
    | none =>
      refine ⟨?_, ?_, ?_, ?_, ?_⟩ <;>
        simp [stepJoinRoom, hu, hroom, leavePhase, hcr, joinPhase,
          alookup_aset, memberOfRoomStealth, mem_setAdd, emitsToRoom,
          ackStealth]
    | some crid =>
      by_cases hsame : crid = rid
      · subst hsame
        have hstl : user.stealthMode = true := hclean hcr
        refine ⟨?_, ?_, ?_, ?_, ?_⟩ <;>
          simp [stepJoinRoom, hu, hroom, leavePhase, hcr, hstl, joinPhase,
            alookup_aset, aset_aset, memberOfRoomStealth, mem_setAdd,
            emitsToRoom, ackStealth,
            setDelete_of_not_mem room.users sid hnotvis]
      · have hne : ¬ rid = crid := fun h => hsame h.symm
        cases hcroom : alookup st.rooms crid with
        | none =>
          refine ⟨?_, ?_, ?_, ?_, ?_⟩ <;>
            simp [stepJoinRoom, hu, hroom, leavePhase, hcr, hcroom,
              joinPhase, alookup_aset, memberOfRoomStealth, mem_setAdd,
              emitsToRoom, ackStealth]
        | some croom =>
          cases hstl : user.stealthMode with
          | true =>
            refine ⟨?_, ?_, ?_, ?_, ?_⟩ <;>
              simp [stepJoinRoom, hu, hroom, leavePhase, hcr, hcroom, hstl,
                joinPhase, alookup_aset, hne, memberOfRoomStealth,
                mem_setAdd, emitsToRoom, ackStealth]
          | false =>
            refine ⟨?_, ?_, ?_, ?_, ?_⟩ <;>
              simp [stepJoinRoom, hu, hroom, leavePhase, hcr, hcroom, hstl,
                joinPhase, alookup_aset, hne, hsame, memberOfRoomStealth,
                mem_setAdd, emitsToRoom, ackStealth]
  · intro pw
    by_cases hp : pw = some STEALTH_PASSWORD
    · exact Or.inl hp
    · refine Or.inr ?_
      have hcond : (decide (pw = some STEALTH_PASSWORD) = false) ∧
          truthy room.password = true ∧ room.password ≠ pw := by
        refine ⟨by simp [hp], by rw [hpw]; decide, ?_⟩
        rw [hpw]
        exact fun h => hp (h.symm)
      simp [stepJoinRoom, hu, hroom, hcond]

/-- Room of the C10 witness, whose own password is the stealth credential. -/
def c10room : Room :=
  { name := "Lair", password := some STEALTH_PASSWORD, owner := some "z",
    messages := [], users := [], stealthUsers := [], lastActivity := 0 }

/-- Session of the C10 witness, outside any room. -/
def c10user : User :=
  { nickname := "dora", currentRoom := none, isOwner := false,
    stealthMode := false }

/-- State of the C10 witness. -/
def c10st : ServerState :=
  { rooms := [("lair", c10room)], users := [("d", c10user)] }

/-- Witness for C10 at a concrete state: joining the stealth-password room
with its password lands the joiner in the hidden set with the visible set
unchanged and no broadcast addressed to the room, and any other password is
rejected with a private error. -/
theorem c10_witness :
    memberOfRoomStealth (stepJoinRoom c10st "d" "lair"
        (some STEALTH_PASSWORD) 3 "t").1 "lair" "d" = true ∧
    emitsToRoom (stepJoinRoom c10st "d" "lair" (some STEALTH_PASSWORD) 3
      "t").2 "lair" = false ∧
    (some "guess" = some STEALTH_PASSWORD ∨
      (stepJoinRoom c10st "d" "lair" (some "guess") 3 "t").2 =
        [Emit.toSocket "d" "joinError" (Payload.textMsg "Incorrect password!")]) := by
  have h := c10_stealth_password_room c10st "d" "lair" c10user c10room 3 "t"
    (by rfl) (by rfl) (by rfl) (by intro hc; cases hc) (by decide)
  exact ⟨h.1.1, h.1.2.2.2.1, h.2 (some "guess")⟩

/-- Trace exhibiting the deletion of the public room: the owner of room
"10" requests `closeRoom` (which passes the public-room guard, since the
current room is "10"), then joins the public room during the 2-second
delay; the deferred callback reads `user.currentRoom` at fire time and
deletes the public room instead of room "10". -/
def c4trace : List Event :=
  [Event.setNickname "o" "owner1", Event.createRoom "o" "Team" none 10,
   Event.joinRoom "o" "10" none 11 "t", Event.closeRoom "o" none,
   Event.joinRoom "o" "public" none 12 "t", Event.closeFire "o"]

/-- Claim C4 evaluated at the failing input: before the deferred deletion
fires the public room exists, and after it fires the public room has been
deleted from the registry while the room on which `closeRoom` was invoked
still exists — the close-room path can remove the default room. -/
theorem c4_public_room_deleted :
    roomExists (runTrace (initialState 0) (c4trace.take 5)) "public" = true ∧
    roomExists (runTrace (initialState 0) c4trace) "public" = false ∧
    roomExists (runTrace (initialState 0) c4trace) "10" = true := by
  refine ⟨by decide, by decide, by decide⟩

/-- Trace exhibiting the wrong-room deletion of the deferred close: the
owner of rooms "30" and "40" invokes `closeRoom` while in "30", then joins
"40" during the delay; the deferred callback deletes "40". -/
def c6trace : List Event :=
  [Event.setNickname "q" "quinn1", Event.createRoom "q" "Alpha" none 30,
   Event.createRoom "q" "Beta" none 40, Event.joinRoom "q" "30" none 41 "t",
   Event.closeRoom "q" none, Event.joinRoom "q" "40" none 42 "t",
   Event.closeFire "q"]

/-- Claim C6 evaluated at the failing input: `closeRoom` was invoked on
room "30", yet after the closing session joins room "40" during the delay,
the deferred deletion removes "40" and leaves "30" in the registry — the
deferred deletion is affected by events the closing session performs during
the delay and does not delete the room on which close-room was invoked. -/
theorem c6_deferred_close_deletes_wrong_room :
    roomExists (runTrace (initialState 0) c6trace) "30" = true ∧
    roomExists (runTrace (initialState 0) c6trace) "40" = false := by
  refine ⟨by decide, by decide⟩

/-- Trace exhibiting double membership: after re-running `setNickname`
while inside the public room, the session record is reset but the public
room's member set still holds the connection; the following create/join
pairs leave the connection in the member sets of two rooms at once. -/
def c1trace : List Event :=
  [Event.setNickname "s1" "alice", Event.joinRoom "s1" "public" none 1 "t",
   Event.setNickname "s1" "alice", Event.createRoom "s1" "Team" none 5,
   Event.joinRoom "s1" "5" none 6 "t", Event.createRoom "s1" "Blue" none 7,
   Event.joinRoom "s1" "7" none 8 "t"]

/-- Claim C1 counterexample: at the reachable state after `c1trace` the
connection "s1" is a visible member of both the public room and room "7" —
the last event was a successful join of room "7" by a session occupying
room "5", after which the identity is still present in a membership set of
another room, and the at-most-one-room invariant fails. -/
theorem c1_counterexample :
    memberOfRoomUsers (runTrace (initialState 0) c1trace) "public" "s1" =
      true ∧
    memberOfRoomUsers (runTrace (initialState 0) c1trace) "7" "s1" = true ∧
    memberOfRoomUsers (runTrace (initialState 0) c1trace) "5" "s1" = false := by
  refine ⟨by decide, by decide, by decide⟩

/-- Membership invariant: every identity found in a room's visible (resp.
hidden) member set belongs to a session whose current room is that room and
whose stealth flag matches the set. -/
def MemberInv (st : ServerState) : Prop :=
  ∀ rid room, alookup st.rooms rid = some room →
    (∀ sid, sid ∈ room.users → ∃ u, alookup st.users sid = some u ∧
        u.currentRoom = some rid ∧ u.stealthMode = false) ∧
    (∀ sid, sid ∈ room.stealthUsers → ∃ u, alookup st.users sid = some u ∧
        u.currentRoom = some rid ∧ u.stealthMode = true)

/-- An identity occurs in the member sets of at most one room. -/
def MemberUnique (st : ServerState) : Prop :=
  ∀ sid rid₁ rid₂ room₁ room₂,
    alookup st.rooms rid₁ = some room₁ → alookup st.rooms rid₂ = some room₂ →
    (sid ∈ room₁.users ∨ sid ∈ room₁.stealthUsers) →
    (sid ∈ room₂.users ∨ sid ∈ room₂.stealthUsers) → rid₁ = rid₂

/-- An identity is never in both the visible and the hidden set of a room. -/
def MemberExclusive (st : ServerState) : Prop :=
  ∀ sid rid room, alookup st.rooms rid = some room →
    ¬ (sid ∈ room.users ∧ sid ∈ room.stealthUsers)

/-- Membership invariant with one identity exempted and guaranteed absent
from every member set — the intermediate shape after the leave block of the
`joinRoom` handler has removed the identity from its current room. -/
def MemberInvExcept (st : ServerState) (x : String) : Prop :=
  ∀ rid room, alookup st.rooms rid = some room →
    (∀ sid, sid ∈ room.users → sid ≠ x → ∃ u, alookup st.users sid = some u ∧
        u.currentRoom = some rid ∧ u.stealthMode = false) ∧
    (∀ sid, sid ∈ room.stealthUsers → sid ≠ x →
      ∃ u, alookup st.users sid = some u ∧
        u.currentRoom = some rid ∧ u.stealthMode = true) ∧
    x ∉ room.users ∧ x ∉ room.stealthUsers

theorem memberInv_of_except (st : ServerState) (x : String)
    (h : MemberInvExcept st x) : MemberInv st := by
  intro rid room hroom
  obtain ⟨h1, h2, hx1, hx2⟩ := h rid room hroom
  refine ⟨fun sid hs => ?_, fun sid hs => ?_⟩
  · by_cases he : sid = x
    · exact absurd (he ▸ hs) hx1
    · exact h1 sid hs he
  · by_cases he : sid = x
    · exact absurd (he ▸ hs) hx2
    · exact h2 sid hs he

theorem memberInv_mono (st st' : ServerState) (hinv : MemberInv st)
    (hu : st'.users = st.users)
    (hr : ∀ rid room', alookup st'.rooms rid = some room' →
      ∃ room, alookup st.rooms rid = some room ∧
        (∀ s, s ∈ room'.users → s ∈ room.users) ∧
        (∀ s, s ∈ room'.stealthUsers → s ∈ room.stealthUsers)) :
    MemberInv st' := by
  intro rid room' h
  obtain ⟨room, hroom, hus, hss⟩ := hr rid room' h
  obtain ⟨h1, h2⟩ := hinv rid room hroom
  constructor
  · intro sid hs
    rw [hu]
    exact h1 sid (hus sid hs)
  · intro sid hs
    rw [hu]
    exact h2 sid (hss sid hs)

theorem memberInv_update_room (st : ServerState) (crid : String)
    (room room' : Room) (hroom : alookup st.rooms crid = some room)
    (hus : room'.users = room.users)
    (hstl : room'.stealthUsers = room.stealthUsers)
    (hinv : MemberInv st) :
    MemberInv { rooms := aset st.rooms crid room', users := st.users } := by
  apply memberInv_mono st _ hinv
  · rfl
  intro rid0 r0 h0
  have h0' : (if rid0 = crid then some room' else alookup st.rooms rid0) =
      some r0 := by
    rw [← alookup_aset]
    exact h0
  by_cases he : rid0 = crid
  · rw [if_pos he] at h0'
    cases h0'
    exact ⟨room, he ▸ hroom, by rw [hus]; exact fun s hs => hs,
      by rw [hstl]; exact fun s hs => hs⟩
  · rw [if_neg he] at h0'
    exact ⟨r0, h0', fun s hs => hs, fun s hs => hs⟩

theorem memberInv_delete_room (st : ServerState) (rid : String)
    (hinv : MemberInv st) :
    MemberInv { rooms := adel st.rooms rid, users := st.users } := by
  apply memberInv_mono st _ hinv
  · rfl
  intro rid0 r0 h0
  have h0' : (if rid0 = rid then none else alookup st.rooms rid0) =
      some r0 := by
    rw [← alookup_adel]
    exact h0
  by_cases he : rid0 = rid
  · rw [if_pos he] at h0'
    cases h0'
  · rw [if_neg he] at h0'
    exact ⟨r0, h0', fun s hs => hs, fun s hs => hs⟩

/-- Session record installed by a valid `setNickname`. -/
def freshSession (nickname : String) : User :=
  { nickname := nickname, currentRoom := none, isOwner := false,
    stealthMode := false }

/-- Room record installed by `createRoom`. -/
def madeRoom (roomName : String) (password : Option String) (sid : String)
    (now : Nat) : Room :=
  { name := roomName, password := normPassword password, owner := some sid,
    messages := [], users := [], stealthUsers := [], lastActivity := now }

theorem memberInv_setNickname (st : ServerState) (sid nick : String)
    (hinv : MemberInv st)
    (hres : (alookup st.users sid).all (fun u => u.currentRoom == none) = true) :
    MemberInv (stepSetNickname st sid nick).1 := by
  by_cases hlen : (jsTrim nick).length < 2
  · have h : (stepSetNickname st sid nick).1 = st := by
      simp [stepSetNickname, hlen]
    rw [h]
    exact hinv
  · have h : (stepSetNickname st sid nick).1 =
        { rooms := st.rooms,
          users := aset st.users sid (freshSession (jsTrim nick)) } := by
      simp [stepSetNickname, hlen, freshSession]
    rw [h]
    intro rid room hroom
    obtain ⟨h1, h2⟩ := hinv rid room hroom
    constructor
    · intro s hs
      obtain ⟨u0, hu0, hcur0, hm0⟩ := h1 s hs
      by_cases hss : s = sid
      · subst hss
        rw [hu0] at hres
        simp at hres
        rw [hres] at hcur0
        cases hcur0
      · refine ⟨u0, ?_, hcur0, hm0⟩
        show alookup (aset st.users sid (freshSession (jsTrim nick))) s =
          some u0
        rw [alookup_aset, if_neg hss]
        exact hu0
    · intro s hs
      obtain ⟨u0, hu0, hcur0, hm0⟩ := h2 s hs
      by_cases hss : s = sid
      · subst hss
        rw [hu0] at hres
        simp at hres
        rw [hres] at hcur0
        cases hcur0
      · refine ⟨u0, ?_, hcur0, hm0⟩
        show alookup (aset st.users sid (freshSession (jsTrim nick))) s =
          some u0
        rw [alookup_aset, if_neg hss]
        exact hu0

theorem memberInv_createRoom (st : ServerState) (sid roomName : String)
    (password : Option String) (now : Nat) (hinv : MemberInv st) :
    MemberInv (stepCreateRoom st sid roomName password now).1 := by
  cases hu : alookup st.users sid with
  | none =>
    have h : (stepCreateRoom st sid roomName password now).1 = st := by
      simp [stepCreateRoom, hu]
    rw [h]
    exact hinv
  | some user =>
    have h : (stepCreateRoom st sid roomName password now).1 =
        { rooms := aset st.rooms (toString now)
            (madeRoom roomName password sid now),
          users := aset st.users sid { user with isOwner := true } } := by
      simp [stepCreateRoom, hu, madeRoom]
    rw [h]
    intro rid room hroom
    have hroom' : (if rid = toString now
        then some (madeRoom roomName password sid now)
        else alookup st.rooms rid) = some room := by
      rw [← alookup_aset]
      exact hroom
    by_cases he : rid = toString now
    · rw [if_pos he] at hroom'
      cases hroom'
      constructor
      · intro s hs
        simp [madeRoom] at hs
      · intro s hs
        simp [madeRoom] at hs
    · rw [if_neg he] at hroom'
      obtain ⟨h1, h2⟩ := hinv rid room hroom'
      constructor
      · intro s hs
        obtain ⟨u0, hu0, hcur0, hm0⟩ := h1 s hs
        by_cases hss : s = sid
        · subst hss
          rw [hu] at hu0
          cases hu0
          refine ⟨{ user with isOwner := true }, ?_, hcur0, hm0⟩
          show alookup (aset st.users s { user with isOwner := true }) s =
            some { user with isOwner := true }
          rw [alookup_aset, if_pos rfl]
        · refine ⟨u0, ?_, hcur0, hm0⟩
          show alookup (aset st.users sid { user with isOwner := true }) s =
            some u0
          rw [alookup_aset, if_neg hss]
          exact hu0
      · intro s hs
        obtain ⟨u0, hu0, hcur0, hm0⟩ := h2 s hs
        by_cases hss : s = sid
        · subst hss
          rw [hu] at hu0
          cases hu0
          refine ⟨{ user with isOwner := true }, ?_, hcur0, hm0⟩
          show alookup (aset st.users s { user with isOwner := true }) s =
            some { user with isOwner := true }
          rw [alookup_aset, if_pos rfl]
        · refine ⟨u0, ?_, hcur0, hm0⟩
          show alookup (aset st.users sid { user with isOwner := true }) s =
            some u0
          rw [alookup_aset, if_neg hss]
          exact hu0

theorem memberInv_init (now : Nat) : MemberInv (initialState now) := by
  intro rid room hroom
  simp only [initialState, alookup] at hroom
  split at hroom
  · cases hroom
    constructor
    · intro sid hs
      cases hs
    · intro sid hs
      cases hs
  · cases hroom

/-- Room state after the leave block removed a member in stealth mode. -/
def hiddenLeftRoom (croom : Room) (sid : String) (now : Nat) : Room :=
  { croom with
    users := setDelete croom.users sid,
    stealthUsers := setDelete croom.stealthUsers sid,
    lastActivity := now }

/-- Room state after the leave block removed a visible member and appended
the left system message. -/
def visibleLeftRoom (croom : Room) (sid nickname : String) (now : Nat)
    (ts : String) : Room :=
  { hiddenLeftRoom croom sid now with
    messages := (hiddenLeftRoom croom sid now).messages ++
      [leaveMessage nickname now ts] }

/-- Session record after joining a room. -/
def joinedSession (user : User) (rid : String) (stealth : Bool) : User :=
  { user with currentRoom := some rid, stealthMode := stealth }

/-- Target room after a hidden join. -/
def stealthJoinedRoom (room : Room) (sid : String) (now : Nat) : Room :=
  { room with
    stealthUsers := setAdd room.stealthUsers sid,
    lastActivity := now }

/-- Target room after a visible join (joined message appended). -/
def visibleJoinedRoom (room : Room) (sid nickname : String) (now : Nat)
    (ts : String) : Room :=
  { room with
    users := setAdd room.users sid,
    lastActivity := now,
    messages := room.messages ++ [joinMessage nickname now ts] }

theorem memberInvExcept_aux (st : ServerState) (sid crid : String)
    (croom C : Room) (user : User) (hinv : MemberInv st)
    (hu : alookup st.users sid = some user)
    (hcr : user.currentRoom = some crid)
    (hcroom : alookup st.rooms crid = some croom)
    (hCu : C.users = setDelete croom.users sid)
    (hCs : C.stealthUsers = setDelete croom.stealthUsers sid) :
    MemberInvExcept { rooms := aset st.rooms crid C, users := st.users }
      sid := by
  intro rid room hroom
  have hroom' : (if rid = crid then some C else alookup st.rooms rid) =
      some room := by
    rw [← alookup_aset]
    exact hroom
  by_cases he : rid = crid
  · rw [if_pos he] at hroom'
    cases hroom'
    subst he
    obtain ⟨h1, h2⟩ := hinv rid croom hcroom
    refine ⟨?_, ?_, ?_, ?_⟩
    · intro s hs hsne
      have hs' := (mem_setDelete croom.users sid s).mp (hCu ▸ hs)
      exact h1 s hs'.1
    · intro s hs hsne
      have hs' := (mem_setDelete croom.stealthUsers sid s).mp (hCs ▸ hs)
      exact h2 s hs'.1
    · rw [hCu]
      exact not_mem_setDelete croom.users sid
    · rw [hCs]
      exact not_mem_setDelete croom.stealthUsers sid
  · rw [if_neg he] at hroom'
    obtain ⟨h1, h2⟩ := hinv rid room hroom'
    refine ⟨fun s hs _ => h1 s hs, fun s hs _ => h2 s hs, ?_, ?_⟩
    · intro hmem
      obtain ⟨u0, hu0, hcur0, _⟩ := h1 sid hmem
      rw [hu] at hu0
      cases hu0
      rw [hcr] at hcur0
      exact he (Option.some.inj hcur0).symm
    · intro hmem
      obtain ⟨u0, hu0, hcur0, _⟩ := h2 sid hmem
      rw [hu] at hu0
      cases hu0
      rw [hcr] at hcur0
      exact he (Option.some.inj hcur0).symm

theorem except_of_not_current (st : ServerState) (sid : String) (user : User)
    (hinv : MemberInv st) (hu : alookup st.users sid = some user)
    (hnc : ∀ rid room, alookup st.rooms rid = some room →
      user.currentRoom ≠ some rid) :
    MemberInvExcept st sid := by
  intro rid room hroom
  obtain ⟨h1, h2⟩ := hinv rid room hroom
  refine ⟨fun s hs _ => h1 s hs, fun s hs _ => h2 s hs, ?_, ?_⟩
  · intro hmem
    obtain ⟨u0, hu0, hcur0, _⟩ := h1 sid hmem
    rw [hu] at hu0
    cases hu0
    exact hnc rid room hroom hcur0
  · intro hmem
    obtain ⟨u0, hu0, hcur0, _⟩ := h2 sid hmem
    rw [hu] at hu0
    cases hu0
    exact hnc rid room hroom hcur0

theorem except_of_users_none (st : ServerState) (sid : String)
    (hinv : MemberInv st) (hu : alookup st.users sid = none) :
    MemberInvExcept st sid := by
  intro rid room hroom
  obtain ⟨h1, h2⟩ := hinv rid room hroom
  refine ⟨fun s hs _ => h1 s hs, fun s hs _ => h2 s hs, ?_, ?_⟩
  · intro hmem
    obtain ⟨u0, hu0, _, _⟩ := h1 sid hmem
    rw [hu] at hu0
    cases hu0
  · intro hmem
    obtain ⟨u0, hu0, _, _⟩ := h2 sid hmem
    rw [hu] at hu0
    cases hu0

theorem leavePhase_except (st : ServerState) (sid : String) (user : User)
    (now : Nat) (ts : String) (hinv : MemberInv st)
    (hu : alookup st.users sid = some user) :
    MemberInvExcept (leavePhase st sid user now ts).1 sid ∧
    (leavePhase st sid user now ts).1.users = st.users := by
  cases hcr : user.currentRoom with
  | none =>
    have h : (leavePhase st sid user now ts).1 = st := by
      simp [leavePhase, hcr]
    rw [h]
    refine ⟨?_, rfl⟩
    apply except_of_not_current st sid user hinv hu
    intro rid room hroom
    rw [hcr]
    intro hcontra
    cases hcontra
  | some crid =>
    cases hcroom : alookup st.rooms crid with
    | none =>
      have h : (leavePhase st sid user now ts).1 = st := by
        simp [leavePhase, hcr, hcroom]
      rw [h]
      refine ⟨?_, rfl⟩
      apply except_of_not_current st sid user hinv hu
      intro rid room hroom
      rw [hcr]
      intro hcontra
      have heq : crid = rid := Option.some.inj hcontra
      rw [← heq] at hroom
      rw [hroom] at hcroom
      cases hcroom
    | some croom =>
      cases hstl : user.stealthMode with
      | true =>
        have h : (leavePhase st sid user now ts).1 =
            { rooms := aset st.rooms crid (hiddenLeftRoom croom sid now),
              users := st.users } := by
          simp [leavePhase, hcr, hcroom, hstl, hiddenLeftRoom]
        rw [h]
        exact ⟨memberInvExcept_aux st sid crid croom _ user hinv hu hcr
          hcroom rfl rfl, rfl⟩
      | false =>
        have h : (leavePhase st sid user now ts).1 =
            { rooms := aset st.rooms crid
                (visibleLeftRoom croom sid user.nickname now ts),
              users := st.users } := by
          simp [leavePhase, hcr, hcroom, hstl, visibleLeftRoom,
            hiddenLeftRoom]
        rw [h]
        exact ⟨memberInvExcept_aux st sid crid croom _ user hinv hu hcr
          hcroom rfl rfl, rfl⟩

theorem joinPhase_memberInv (st : ServerState) (sid rid : String)
    (user : User) (stealth : Bool) (now : Nat) (ts : String)
    (hexc : MemberInvExcept st sid) :
    MemberInv (joinPhase st sid rid user stealth now ts).1 := by
  cases hroom : alookup st.rooms rid with
  | none =>
    have h : (joinPhase st sid rid user stealth now ts).1 = st := by
      simp [joinPhase, hroom]
    rw [h]
    exact memberInv_of_except st sid hexc
  | some room =>
    obtain ⟨e1, e2, ex1, ex2⟩ := hexc rid room hroom
    cases stealth with
    | true =>
      have h : (joinPhase st sid rid user true now ts).1 =
          { rooms := aset st.rooms rid (stealthJoinedRoom room sid now),
            users := aset st.users sid (joinedSession user rid true) } := by
        simp [joinPhase, hroom, stealthJoinedRoom, joinedSession]
      rw [h]
      intro rid0 room0 hroom0
      have hroom0' : (if rid0 = rid then some (stealthJoinedRoom room sid now)
          else alookup st.rooms rid0) = some room0 := by
        rw [← alookup_aset]
        exact hroom0
      by_cases he : rid0 = rid
      · rw [if_pos he] at hroom0'
        cases hroom0'
        subst he
        refine ⟨?_, ?_⟩
        · intro s hs
          have hsne : s ≠ sid := fun heq => absurd (heq ▸ hs) ex1
          obtain ⟨u0, hu0, hc, hm⟩ := e1 s hs hsne
          refine ⟨u0, ?_, hc, hm⟩
          show alookup (aset st.users sid (joinedSession user rid0 true)) s =
            some u0
          rw [alookup_aset, if_neg hsne]
          exact hu0
        · intro s hs
          have hs' := (mem_setAdd room.stealthUsers sid s).mp hs
          by_cases hsne : s = sid
          · subst hsne
            refine ⟨joinedSession user rid0 true, ?_, rfl, rfl⟩
            show alookup (aset st.users s (joinedSession user rid0 true)) s =
              some (joinedSession user rid0 true)
            rw [alookup_aset, if_pos rfl]
          · obtain ⟨u0, hu0, hc, hm⟩ := e2 s (hs'.resolve_right hsne) hsne
            refine ⟨u0, ?_, hc, hm⟩
            show alookup (aset st.users sid (joinedSession user rid0 true))
              s = some u0
            rw [alookup_aset, if_neg hsne]
            exact hu0
      · rw [if_neg he] at hroom0'
        obtain ⟨f1, f2, fx1, fx2⟩ := hexc rid0 room0 hroom0'
        refine ⟨?_, ?_⟩
        · intro s hs
          have hsne : s ≠ sid := fun heq => absurd (heq ▸ hs) fx1
          obtain ⟨u0, hu0, hc, hm⟩ := f1 s hs hsne
          refine ⟨u0, ?_, hc, hm⟩
          show alookup (aset st.users sid (joinedSession user rid true)) s =
            some u0
          rw [alookup_aset, if_neg hsne]
          exact hu0
        · intro s hs
          have hsne : s ≠ sid := fun heq => absurd (heq ▸ hs) fx2
          obtain ⟨u0, hu0, hc, hm⟩ := f2 s hs hsne
          refine ⟨u0, ?_, hc, hm⟩
          show alookup (aset st.users sid (joinedSession user rid true)) s =
            some u0
          rw [alookup_aset, if_neg hsne]
          exact hu0
    | false =>
      have h : (joinPhase st sid rid user false now ts).1 =
          { rooms := aset st.rooms rid
              (visibleJoinedRoom room sid user.nickname now ts),
            users := aset st.users sid (joinedSession user rid false) } := by
        simp [joinPhase, hroom, visibleJoinedRoom, joinedSession]
      rw [h]
      intro rid0 room0 hroom0
      have hroom0' : (if rid0 = rid
          then some (visibleJoinedRoom room sid user.nickname now ts)
          else alookup st.rooms rid0) = some room0 := by
        rw [← alookup_aset]
        exact hroom0
      by_cases he : rid0 = rid
      · rw [if_pos he] at hroom0'
        cases hroom0'
        subst he
        refine ⟨?_, ?_⟩
        · intro s hs
          have hs' := (mem_setAdd room.users sid s).mp hs
          by_cases hsne : s = sid
          · subst hsne
            refine ⟨joinedSession user rid0 false, ?_, rfl, rfl⟩
            show alookup (aset st.users s (joinedSession user rid0 false)) s =
              some (joinedSession user rid0 false)
            rw [alookup_aset, if_pos rfl]
          · obtain ⟨u0, hu0, hc, hm⟩ := e1 s (hs'.resolve_right hsne) hsne
            refine ⟨u0, ?_, hc, hm⟩
            show alookup (aset st.users sid (joinedSession user rid0 false))
              s = some u0
            rw [alookup_aset, if_neg hsne]
            exact hu0
        · intro s hs
          have hsne : s ≠ sid := fun heq => absurd (heq ▸ hs) ex2
          obtain ⟨u0, hu0, hc, hm⟩ := e2 s hs hsne
          refine ⟨u0, ?_, hc, hm⟩
          show alookup (aset st.users sid (joinedSession user rid0 false)) s =
            some u0
          rw [alookup_aset, if_neg hsne]
          exact hu0
      · rw [if_neg he] at hroom0'
        obtain ⟨f1, f2, fx1, fx2⟩ := hexc rid0 room0 hroom0'
        refine ⟨?_, ?_⟩
        · intro s hs
          have hsne : s ≠ sid := fun heq => absurd (heq ▸ hs) fx1
          obtain ⟨u0, hu0, hc, hm⟩ := f1 s hs hsne
          refine ⟨u0, ?_, hc, hm⟩
          show alookup (aset st.users sid (joinedSession user rid false)) s =
            some u0
          rw [alookup_aset, if_neg hsne]
          exact hu0
        · intro s hs
          have hsne : s ≠ sid := fun heq => absurd (heq ▸ hs) fx2
          obtain ⟨u0, hu0, hc, hm⟩ := f2 s hs hsne
          refine ⟨u0, ?_, hc, hm⟩
          show alookup (aset st.users sid (joinedSession user rid false)) s =
            some u0
          rw [alookup_aset, if_neg hsne]
          exact hu0

theorem memberInv_joinRoom (st : ServerState) (sid rid : String)
    (password : Option String) (now : Nat) (ts : String)
    (hinv : MemberInv st) :
    MemberInv (stepJoinRoom st sid rid password now ts).1 := by
  cases hu : alookup st.users sid with
  | none =>
    have h : (stepJoinRoom st sid rid password now ts).1 = st := by
      simp [stepJoinRoom, hu]
    rw [h]
    exact hinv
  | some user =>
    cases hroom : alookup st.rooms rid with
    | none =>
      have h : (stepJoinRoom st sid rid password now ts).1 = st := by
        simp [stepJoinRoom, hu, hroom]
      rw [h]
      exact hinv
    | some room =>
      by_cases herr : ¬ password = some STEALTH_PASSWORD ∧
          truthy room.password = true ∧ ¬ room.password = password
      · have h : (stepJoinRoom st sid rid password now ts).1 = st := by
          simp [stepJoinRoom, hu, hroom]
          rw [if_pos herr]
        rw [h]
        exact hinv
      · have h : (stepJoinRoom st sid rid password now ts).1 =
            (joinPhase (leavePhase st sid user now ts).1 sid rid user
              (decide (password = some STEALTH_PASSWORD)) now ts).1 := by
          simp [stepJoinRoom, hu, hroom]
          rw [if_neg herr]
        rw [h]
        exact joinPhase_memberInv _ sid rid user _ now ts
          (leavePhase_except st sid user now ts hinv hu).1

theorem memberInv_adel_of_except (st : ServerState) (x : String)
    (hexc : MemberInvExcept st x) :
    MemberInv { rooms := st.rooms, users := adel st.users x } := by
  intro rid room hroom
  obtain ⟨h1, h2, hx1, hx2⟩ := hexc rid room hroom
  refine ⟨?_, ?_⟩
  · intro s hs
    have hne : s ≠ x := fun he => absurd (he ▸ hs) hx1
    obtain ⟨u0, hu0, hc, hm⟩ := h1 s hs hne
    refine ⟨u0, ?_, hc, hm⟩
    show alookup (adel st.users x) s = some u0
    rw [alookup_adel, if_neg hne]
    exact hu0
  · intro s hs
    have hne : s ≠ x := fun he => absurd (he ▸ hs) hx2
    obtain ⟨u0, hu0, hc, hm⟩ := h2 s hs hne
    refine ⟨u0, ?_, hc, hm⟩
    show alookup (adel st.users x) s = some u0
    rw [alookup_adel, if_neg hne]
    exact hu0

theorem memberInv_disconnect (st : ServerState) (sid : String) (now : Nat)
    (ts : String) (hinv : MemberInv st) :
    MemberInv (stepDisconnect st sid now ts).1 := by
  cases hu : alookup st.users sid with
  | none =>
    have h : (stepDisconnect st sid now ts).1 =
        { rooms := st.rooms, users := adel st.users sid } := by
      simp [stepDisconnect, hu]
    rw [h]
    exact memberInv_adel_of_except st sid (except_of_users_none st sid hinv hu)
  | some user =>
    cases hcr : user.currentRoom with
    | none =>
      have h : (stepDisconnect st sid now ts).1 =
          { rooms := st.rooms, users := adel st.users sid } := by
        simp [stepDisconnect, hu, hcr]
      rw [h]
      apply memberInv_adel_of_except st sid
      apply except_of_not_current st sid user hinv hu
      intro rid room hroom
      rw [hcr]
      intro hcontra
      cases hcontra
    | some crid =>
      cases hcroom : alookup st.rooms crid with
      | none =>
        have h : (stepDisconnect st sid now ts).1 =
            { rooms := st.rooms, users := adel st.users sid } := by
          simp [stepDisconnect, hu, hcr, hcroom]
        rw [h]
        apply memberInv_adel_of_except st sid
        apply except_of_not_current st sid user hinv hu
        intro rid room hroom
        rw [hcr]
        intro hcontra
        have heq : crid = rid := Option.some.inj hcontra
        rw [← heq] at hroom
        rw [hroom] at hcroom
        cases hcroom
      | some croom =>
        cases hstl : user.stealthMode with
        | true =>
          have h : (stepDisconnect st sid now ts).1 =
              { rooms := aset st.rooms crid (hiddenLeftRoom croom sid now),
                users := adel st.users sid } := by
            simp [stepDisconnect, hu, hcr, hcroom, hstl, hiddenLeftRoom]
          rw [h]
          exact memberInv_adel_of_except _ sid
            (memberInvExcept_aux st sid crid croom _ user hinv hu hcr hcroom
              rfl rfl)
        | false =>
          have h : (stepDisconnect st sid now ts).1 =
              { rooms := aset st.rooms crid
                  (visibleLeftRoom croom sid user.nickname now ts),
                users := adel st.users sid } := by
            simp [stepDisconnect, hu, hcr, hcroom, hstl, visibleLeftRoom,
              hiddenLeftRoom]
          rw [h]
          exact memberInv_adel_of_except _ sid
            (memberInvExcept_aux st sid crid croom _ user hinv hu hcr hcroom
              rfl rfl)

/-- The user message constructed by `sendMessage`. -/
def userMessage (nickname text : String) (now : Nat) (ts : String) : Message :=
  { id := toString now, type := "user", nickname := some nickname,
    text := text, timestamp := ts }

/-- Room state written back by `sendMessage`. -/
def sentRoom (room : Room) (nickname text : String) (now : Nat)
    (ts : String) : Room :=
  { room with
    messages :=
      if (room.messages ++ [userMessage nickname text now ts]).length > 100
      then (room.messages ++ [userMessage nickname text now ts]).tail
      else room.messages ++ [userMessage nickname text now ts],
    lastActivity := now }

theorem memberInv_sendMessage (st : ServerState) (sid text : String)
    (now : Nat) (ts : String) (hinv : MemberInv st) :
    MemberInv (stepSendMessage st sid text now ts).1 := by
  cases hu : alookup st.users sid with
  | none =>
    have h : (stepSendMessage st sid text now ts).1 = st := by
      simp [stepSendMessage, hu]
    rw [h]
    exact hinv
  | some user =>
    cases hcr : user.currentRoom with
    | none =>
      have h : (stepSendMessage st sid text now ts).1 = st := by
        simp [stepSendMessage, hu, hcr]
      rw [h]
      exact hinv
    | some crid =>
      cases hcroom : alookup st.rooms crid with
      | none =>
        have h : (stepSendMessage st sid text now ts).1 = st := by
          simp [stepSendMessage, hu, hcr, hcroom]
        rw [h]
        exact hinv
      | some room =>
        have h : (stepSendMessage st sid text now ts).1 =
            { rooms := aset st.rooms crid
                (sentRoom room user.nickname text now ts),
              users := st.users } := by
          simp [stepSendMessage, hu, hcr, hcroom, sentRoom, userMessage]
        rw [h]
        exact memberInv_update_room st crid room _ hcroom rfl rfl hinv

theorem memberInv_clearChat (st : ServerState) (sid : String)
    (password : Option String) (now : Nat) (hinv : MemberInv st) :
    MemberInv (stepClearChat st sid password now).1 := by
  cases hu : alookup st.users sid with
  | none =>
    have h : (stepClearChat st sid password now).1 = st := by
      simp [stepClearChat, hu]
    rw [h]
    exact hinv
  | some user =>
    cases hcr : user.currentRoom with
    | none =>
      have h : (stepClearChat st sid password now).1 = st := by
        simp [stepClearChat, hu, hcr]
      rw [h]
      exact hinv
    | some crid =>
      cases hcroom : alookup st.rooms crid with
      | none =>
        have h : (stepClearChat st sid password now).1 = st := by
          simp [stepClearChat, hu, hcr, hcroom]
        rw [h]
        exact hinv
      | some room =>
        by_cases h1 : room.owner ≠ some sid
        · have h : (stepClearChat st sid password now).1 = st := by
            simp [stepClearChat, hu, hcr, hcroom, h1]
          rw [h]
          exact hinv
        · by_cases h2 : truthy room.password = true ∧ room.password ≠ password
          · have h : (stepClearChat st sid password now).1 = st := by
              simp [stepClearChat, hu, hcr, hcroom, h1, h2]
            rw [h]
            exact hinv
          · have h : (stepClearChat st sid password now).1 =
                { rooms := aset st.rooms crid
                    { room with messages := [], lastActivity := now },
                  users := st.users } := by
              simp [stepClearChat, hu, hcr, hcroom, h1, h2]
            rw [h]
            exact memberInv_update_room st crid room _ hcroom rfl rfl hinv

theorem stepCloseRoom_state (st : ServerState) (sid : String)
    (password : Option String) : (stepCloseRoom st sid password).1 = st := by
  cases hu : alookup st.users sid with
  | none => simp [stepCloseRoom, hu]
  | some user =>
    cases hcr : user.currentRoom with
    | none => simp [stepCloseRoom, hu, hcr]
    | some crid =>
      cases hcroom : alookup st.rooms crid with
      | none => simp [stepCloseRoom, hu, hcr, hcroom]
      | some room =>
        by_cases h1 : crid = "public"
        · subst h1
          simp [stepCloseRoom, hu, hcr, hcroom]
        · by_cases h2 : room.owner = some sid
          · by_cases h3 : truthy room.password = true ∧
                ¬ room.password = password
            · simp [stepCloseRoom, hu, hcr, hcroom, h1, h2, h3]
            · simp [stepCloseRoom, hu, hcr, hcroom, h1, h2, h3]
          · simp [stepCloseRoom, hu, hcr, hcroom, h1, h2]

theorem memberInv_closeFire (st : ServerState) (sid : String)
    (hinv : MemberInv st) : MemberInv (stepCloseFire st sid).1 := by
  cases hu : alookup st.users sid with
  | none =>
    have h : (stepCloseFire st sid).1 = st := by
      simp [stepCloseFire, hu]
    rw [h]
    exact hinv
  | some user =>
    cases hcr : user.currentRoom with
    | none =>
      have h : (stepCloseFire st sid).1 = st := by
        simp [stepCloseFire, hu, hcr]
      rw [h]
      exact hinv
    | some crid =>
      have h : (stepCloseFire st sid).1 =
          { rooms := adel st.rooms crid, users := st.users } := by
        simp [stepCloseFire, hu, hcr]
      rw [h]
      exact memberInv_delete_room st crid hinv

theorem memberInv_cascadeFire (st : ServerState) (rid : String)
    (hinv : MemberInv st) : MemberInv (stepCascadeFire st rid).1 := by
  have h : (stepCascadeFire st rid).1 =
      { rooms := adel st.rooms rid, users := st.users } := by
    simp [stepCascadeFire]
  rw [h]
  exact memberInv_delete_room st rid hinv

theorem cleanupScanEntry_users (now : Nat) (rid : String) (room : Room) :
    (cleanupScanEntry now rid room).users = room.users ∧
    (cleanupScanEntry now rid room).stealthUsers = room.stealthUsers := by
  by_cases h : rid = "public" ∧ roomIdleEmpty now room = true ∧
      room.messages ≠ []
  · simp [cleanupScanEntry, h]
  · simp [cleanupScanEntry, h]

theorem memberInv_cleanup (st : ServerState) (now : Nat)
    (hinv : MemberInv st) : MemberInv (cleanupInactiveRooms st now).1 := by
  apply memberInv_mono st _ hinv
  · rfl
  intro rid0 r0 h0
  have h0' : alookup (((st.rooms.filter fun p =>
      p.1 ≠ "public" && roomIdleEmpty now p.2).map Prod.fst).foldl adel
        (st.rooms.map fun p => (p.1, cleanupScanEntry now p.1 p.2))) rid0 =
      some r0 := h0
  rw [alookup_foldl_adel] at h0'
  by_cases hmem : rid0 ∈ (st.rooms.filter fun p =>
      p.1 ≠ "public" && roomIdleEmpty now p.2).map Prod.fst
  · rw [if_pos hmem] at h0'
    cases h0'
  · rw [if_neg hmem] at h0'
    rw [alookup_map_entries] at h0'
    cases hlook : alookup st.rooms rid0 with
    | none =>
      rw [hlook] at h0'
      cases h0'
    | some room =>
      rw [hlook] at h0'
      have hr0 : cleanupScanEntry now rid0 room = r0 := Option.some.inj h0'
      refine ⟨room, rfl, ?_, ?_⟩
      · intro s hs
        rw [← hr0] at hs
        rw [(cleanupScanEntry_users now rid0 room).1] at hs
        exact hs
      · intro s hs
        rw [← hr0] at hs
        rw [(cleanupScanEntry_users now rid0 room).2] at hs
        exact hs

/-- The trace restriction forced by the C1 counterexample: no `setNickname`
event is processed for a session currently occupying a room. -/
def RestrictedEvent (st : ServerState) : Event → Prop
  | Event.setNickname sid _ =>
      (alookup st.users sid).all (fun u => u.currentRoom == none) = true
  | _ => True

/-- States reachable from startup by event sequences satisfying the
restriction. -/
inductive ReachableR : ServerState → Prop where
  | init (now : Nat) : ReachableR (initialState now)
  | step {st : ServerState} (e : Event) : ReachableR st →
      RestrictedEvent st e → ReachableR (stepEvent st e).1

theorem memberInv_step (st : ServerState) (e : Event) (hinv : MemberInv st)
    (hres : RestrictedEvent st e) : MemberInv (stepEvent st e).1 := by
  cases e with
  | setNickname sid nick => exact memberInv_setNickname st sid nick hinv hres
  | createRoom sid roomName password now =>
    exact memberInv_createRoom st sid roomName password now hinv
  | joinRoom sid rid password now ts =>
    exact memberInv_joinRoom st sid rid password now ts hinv
  | sendMessage sid text now ts =>
    exact memberInv_sendMessage st sid text now ts hinv
  | clearChat sid password now =>
    exact memberInv_clearChat st sid password now hinv
  | closeRoom sid password =>
    rw [show (stepEvent st (Event.closeRoom sid password)).1 = st from
      stepCloseRoom_state st sid password]
    exact hinv
  | closeFire sid => exact memberInv_closeFire st sid hinv
  | disconnect sid now ts => exact memberInv_disconnect st sid now ts hinv
  | cascadeFire rid => exact memberInv_cascadeFire st rid hinv
  | cleanup now => exact memberInv_cleanup st now hinv

/-- Claim C1 (amended): along every event sequence from startup in which no
set-nickname event is processed for a session currently occupying a room,
every reachable state satisfies the membership invariant — each identity in
a room's visible (resp. hidden) member set belongs to a session currently
in that room with the matching stealth flag — and therefore each connection
identity occurs in the member sets of at most one room, and never in both
sets of one room.  (Without the restriction the invariant fails: see the
counterexample, where a repeated set-nickname orphans the membership.) -/
theorem c1_membership_invariant_restricted (st : ServerState)
    (h : ReachableR st) :
    MemberInv st ∧ MemberUnique st ∧ MemberExclusive st := by
  have hinv : MemberInv st := by
    induction h with
    | init now => exact memberInv_init now
    | step e hst hres ih => exact memberInv_step _ e ih hres
  refine ⟨hinv, ?_, ?_⟩
  · intro sid rid₁ rid₂ room₁ room₂ h1 h2 hm1 hm2
    have e1 : ∃ u, alookup st.users sid = some u ∧
        u.currentRoom = some rid₁ := by
      obtain ⟨g1, g2⟩ := hinv rid₁ room₁ h1
      cases hm1 with
      | inl hm =>
        obtain ⟨u, hu, hc, _⟩ := g1 sid hm
        exact ⟨u, hu, hc⟩
      | inr hm =>
        obtain ⟨u, hu, hc, _⟩ := g2 sid hm
        exact ⟨u, hu, hc⟩
    have e2 : ∃ u, alookup st.users sid = some u ∧
        u.currentRoom = some rid₂ := by
      obtain ⟨g1, g2⟩ := hinv rid₂ room₂ h2
      cases hm2 with
      | inl hm =>
        obtain ⟨u, hu, hc, _⟩ := g1 sid hm
        exact ⟨u, hu, hc⟩
      | inr hm =>
        obtain ⟨u, hu, hc, _⟩ := g2 sid hm
        exact ⟨u, hu, hc⟩
    obtain ⟨u1, hu1, hc1⟩ := e1
    obtain ⟨u2, hu2, hc2⟩ := e2
    rw [hu1] at hu2
    cases hu2
    rw [hc1] at hc2
    exact Option.some.inj hc2
  · intro sid rid room hroom hboth
    obtain ⟨g1, g2⟩ := hinv rid room hroom
    obtain ⟨u1, hu1, _, hm1⟩ := g1 sid hboth.1
    obtain ⟨u2, hu2, _, hm2⟩ := g2 sid hboth.2
    rw [hu1] at hu2
    cases hu2
    rw [hm1] at hm2
    cases hm2

/-- Witness for C1 at a concrete restricted trace: the state reached by
setting a nickname and joining the public room satisfies the invariant. -/
theorem c1_witness :
    MemberInv (runTrace (initialState 0) [Event.setNickname "s1" "alice",
      Event.joinRoom "s1" "public" none 1 "t"]) ∧
    MemberUnique (runTrace (initialState 0) [Event.setNickname "s1" "alice",
      Event.joinRoom "s1" "public" none 1 "t"]) ∧
    MemberExclusive (runTrace (initialState 0) [Event.setNickname "s1" "alice",
      Event.joinRoom "s1" "public" none 1 "t"]) :=
  c1_membership_invariant_restricted _
    (ReachableR.step (Event.joinRoom "s1" "public" none 1 "t")
      (ReachableR.step (Event.setNickname "s1" "alice")
        (ReachableR.init 0) (by simp only [RestrictedEvent]; decide))
      (by simp only [RestrictedEvent]))

end Chat
